import Mathlib

/-!
Verification of the RouterOS switch-configuration reconciliation engine
(`src/mikrotik/apply_switch_config.py`).

The engine is embedded shallowly:
* strings are Lean `String`s; Python's `str.split(',')` is modelled by
  `splitComma` (split of the character list on `','`), and the truthiness of
  `str.strip()` by "some character is outside Python's whitespace class"
  (`pyIsSpace`, the exact 29 code points CPython strips);
* the device is a pair of tables (`/interface/bridge/port` and
  `/interface/bridge/vlan`), each a list of entries, an entry being a list of
  (field-name, value) pairs as returned by the RouterOS API;
* API faults (exceptions raised by `get`/`add`/`set`) are injected through a
  `Faults` oracle keyed by interface name resp. VLAN id;
* logging is modelled by an event trace.
-/

namespace SwitchConfig

/-- An API entry: a mapping from string field names to string values,
as returned by `resource.get`. -/
abbrev Entry := List (String × String)

/-- Field lookup in an entry: Python's `dict.get(k)` (first binding wins,
`none` when the key is absent). -/
def lookupF : Entry → String → Option String
  | [], _ => none
  | (k0, v0) :: rest, k => if k0 = k then some v0 else lookupF rest k

/-- Python truthiness test for an optional string: `None` and `""` are falsy. -/
def isFalsy : Option String → Bool
  | none => true
  | some s => s = ""

/-- `get_id` (source lines 40-50): try field `.id`, fall back to field `id`;
a falsy value counts as missing.  The callers test the returned value for
truthiness and skip the record when it is falsy, so the model returns `none`
exactly in that case. -/
def get_id (resource_entry : Entry) : Option String :=
  let rid := lookupF resource_entry ".id"
  let rid := if isFalsy rid then lookupF resource_entry "id" else rid
  if isFalsy rid then none else rid

/-- Python's `s.split(',')`: split the character list on every comma
(`"".split(',') = [""]`, separators are not kept). -/
def splitComma (s : String) : List String :=
  (s.toList.splitOn ',').map (fun l => String.mk l)

/-- `parse_config` (source lines 23-32): split on comma, succeed exactly when
4 fields result, otherwise raise `ValueError` identifying the line. -/
def parse_config (config_str : String) : Except String (String × String × String × String) :=
  match splitComma config_str with
  | [a, b, c, d] => .ok (a, b, c, d)
  | _ => .error ("Invalid config string format: " ++ config_str)

/-- `array_to_string` (source lines 35-37): `",".join(arr)`. -/
def array_to_string : List String → String
  | [] => ""
  | [s] => s
  | s :: rest => s ++ "," ++ array_to_string rest

/-- The code points CPython's `str.strip()` removes (its Unicode whitespace
class): `\t \n \v \f \r`, the separators `0x1C`-`0x1F`, space, NEL, NBSP,
the Ogham space mark, the `0x2000`-`0x200A` spaces, the line and paragraph
separators, the narrow no-break space, the medium mathematical space and
the ideographic space. -/
def pySpaceChars : List Nat :=
  [0x09, 0x0A, 0x0B, 0x0C, 0x0D, 0x1C, 0x1D, 0x1E, 0x1F, 0x20, 0x85, 0xA0,
   0x1680, 0x2000, 0x2001, 0x2002, 0x2003, 0x2004, 0x2005, 0x2006, 0x2007,
   0x2008, 0x2009, 0x200A, 0x2028, 0x2029, 0x202F, 0x205F, 0x3000]

/-- Is this character whitespace for Python's `str.strip()`? -/
def pyIsSpace (c : Char) : Bool :=
  pySpaceChars.contains c.toNat

/-- `current_tagged.split(',') if current_tagged.strip() else []`
(source line 156): Python's `strip()` result is truthy exactly when the
string contains a character outside Python's whitespace class. -/
def tagged_to_array (current_tagged : String) : List String :=
  if current_tagged.toList.any (fun c => !(pyIsSpace c)) then splitComma current_tagged
  else []

/-- Device-generated opaque identifier for the `n`-th created entry; distinct
counters give distinct identifiers, and an identifier is never empty. -/
def mkId (n : Nat) : String := String.mk (List.replicate (n + 1) '*')

/-- The remote device: the two resource tables consumed by the engine and a
counter from which identifiers of newly created entries are drawn. -/
structure Device where
  ports : List Entry
  vlans : List Entry
  nextId : Nat
  deriving DecidableEq

/-- `bridge_port_res.get(interface=iface, bridge=bridge_name)` (source line
104): entries matching both filter fields, in table order. -/
def getPorts (dev : Device) (bridge iface : String) : List Entry :=
  dev.ports.filter (fun e =>
    lookupF e "interface" == some iface && lookupF e "bridge" == some bridge)

/-- `vlan_res.get(bridge=bridge_name, vlan-ids=vlan_id)` (source lines
139-142). -/
def getVlans (dev : Device) (bridge vlan_id : String) : List Entry :=
  dev.vlans.filter (fun e =>
    lookupF e "bridge" == some bridge && lookupF e "vlan-ids" == some vlan_id)

/-- Overwrite one field of an entry (replace the first binding, or append). -/
def setField : Entry → String → String → Entry
  | [], k, v => [(k, v)]
  | (k0, v0) :: rest, k, v =>
    if k0 = k then (k, v) :: rest else (k0, v0) :: setField rest k v

/-- The field update performed by `bridge_port_res.set` (source lines
109-114). -/
def updPortFields (e : Entry) (pvid frame_types ingress_filter : String) : Entry :=
  setField (setField (setField e "pvid" pvid) "frame-types" frame_types)
    "ingress-filtering" ingress_filter

/-- `bridge_port_res.set(id=port_id, pvid=..., frame-types=...,
ingress-filtering=...)`: the device overwrites those fields of the entry
carrying the given identifier. -/
def setPorts (dev : Device) (pid pvid frame_types ingress_filter : String) : Device :=
  { dev with ports := dev.ports.map (fun e =>
      if get_id e = some pid then updPortFields e pvid frame_types ingress_filter else e) }

/-- The entry created by `bridge_port_res.add` (source lines 117-123). -/
def newPortEntry (n : Nat) (bridge iface pvid frame_types ingress_filter : String) : Entry :=
  [(".id", mkId n), ("bridge", bridge), ("interface", iface), ("pvid", pvid),
   ("frame-types", frame_types), ("ingress-filtering", ingress_filter)]

/-- `bridge_port_res.add(...)`: the device appends a fresh entry. -/
def addPort (dev : Device) (bridge iface pvid frame_types ingress_filter : String) : Device :=
  { dev with
    ports := dev.ports ++ [newPortEntry dev.nextId bridge iface pvid frame_types ingress_filter]
    nextId := dev.nextId + 1 }

/-- The field update performed by `vlan_res.set` (source lines 161-165). -/
def updVlanFields (e : Entry) (untagged tagged : String) : Entry :=
  setField (setField e "untagged" untagged) "tagged" tagged

/-- `vlan_res.set(id=vlan_entry_id, untagged=..., tagged=...)`. -/
def setVlans (dev : Device) (vid untagged tagged : String) : Device :=
  { dev with vlans := dev.vlans.map (fun e =>
      if get_id e = some vid then updVlanFields e untagged tagged else e) }

/-- The entry created by `vlan_res.add` (source lines 171-175): note that no
`tagged` field is sent. -/
def newVlanEntry (n : Nat) (bridge vlan_id untagged : String) : Entry :=
  [(".id", mkId n), ("bridge", bridge), ("vlan-ids", vlan_id), ("untagged", untagged)]

/-- `vlan_res.add(bridge=..., vlan-ids=vlan_id, untagged=...)`. -/
def addVlan (dev : Device) (bridge vlan_id untagged : String) : Device :=
  { dev with
    vlans := dev.vlans ++ [newVlanEntry dev.nextId bridge vlan_id untagged]
    nextId := dev.nextId + 1 }

/-- Fault injection: which API calls raise an exception, keyed by the
interface name (port table) resp. VLAN id (vlan table).  `getPort` covers the
read, `writePort` both `set` and `add` (they sit in the same `try` block),
and likewise for the VLAN table. -/
structure Faults where
  getPort : String → Bool
  writePort : String → Bool
  getVlan : String → Bool
  writeVlan : String → Bool

/-- The fault-free device: every API call succeeds. -/
def noFaults : Faults :=
  { getPort := fun _ => false, writePort := fun _ => false
    getVlan := fun _ => false, writeVlan := fun _ => false }

/-- One log line of the run (source `logger` calls). -/
inductive Event where
  | parseError (line : String)
  | apiErrorPort (iface : String)
  | missingPortId (iface : String)
  | portUpdated (iface pvid frame_types ingress_filter : String)
  | portAdded (iface pvid frame_types ingress_filter : String)
  | vlanGetError (vlan_id : String)
  | missingVlanId (vlan_id : String)
  | vlanUpdated (vlan_id untagged tagged : String)
  | vlanCreated (vlan_id untagged : String)
  | vlanSetError (vlan_id : String)
  | vlanAddError (vlan_id : String)
  deriving DecidableEq

/-- `vlan_map.setdefault(pvid, []).append(iface)` (source line 129) on an
insertion-ordered dictionary. -/
def insertAppend (m : List (String × List String)) (k v : String) :
    List (String × List String) :=
  match m with
  | [] => [(k, [v])]
  | (k0, vs) :: rest =>
    if k0 = k then (k0, vs ++ [v]) :: rest else (k0, vs) :: insertAppend rest k v

/-- State threaded through the interface-configuration loop (source lines
92-129): device, accumulated inverted VLAN map, event trace. -/
structure PState where
  device : Device
  vmap : List (String × List String)
  events : List Event
  deriving DecidableEq

/-- One iteration of the interface-configuration loop (source lines 92-129).
A parse failure, or a missing identifier on a found entry, skips the record;
an API exception is logged and execution falls through to the VLAN-map
append, which a missing identifier (`continue`) skips instead. -/
def stepPort (f : Faults) (bridge_name : String) (st : PState) (cfg_str : String) : PState :=
  match parse_config cfg_str with
  | .error _ => { st with events := st.events ++ [.parseError cfg_str] }
  | .ok (iface, pvid, ingress_filter, frame_types) =>
    if f.getPort iface then
      { st with events := st.events ++ [.apiErrorPort iface]
                vmap := insertAppend st.vmap pvid iface }
    else
      match getPorts st.device bridge_name iface with
      | [] =>
        if f.writePort iface then
          { st with events := st.events ++ [.apiErrorPort iface]
                    vmap := insertAppend st.vmap pvid iface }
        else
          { device := addPort st.device bridge_name iface pvid frame_types ingress_filter
            events := st.events ++ [.portAdded iface pvid frame_types ingress_filter]
            vmap := insertAppend st.vmap pvid iface }
      | e :: _ =>
        match get_id e with
        | none => { st with events := st.events ++ [.missingPortId iface] }
        | some port_id =>
          if f.writePort iface then
            { st with events := st.events ++ [.apiErrorPort iface]
                      vmap := insertAppend st.vmap pvid iface }
          else
            { device := setPorts st.device port_id pvid frame_types ingress_filter
              events := st.events ++ [.portUpdated iface pvid frame_types ingress_filter]
              vmap := insertAppend st.vmap pvid iface }

/-- The whole interface-configuration loop. -/
def runPorts (f : Faults) (bridge_name : String) (st : PState) (cfgs : List String) : PState :=
  cfgs.foldl (stepPort f bridge_name) st

/-- State threaded through the VLAN loop (source lines 136-178). -/
structure VState where
  device : Device
  events : List Event
  deriving DecidableEq

/-- One iteration of the VLAN loop (source lines 136-178). -/
def stepVlan (f : Faults) (bridge_name : String) (st : VState) (kv : String × List String) :
    VState :=
  let vlan_id := kv.1
  let untagged_list := kv.2
  let untagged_str := array_to_string untagged_list
  if f.getVlan vlan_id then
    { st with events := st.events ++ [.vlanGetError vlan_id] }
  else
    match getVlans st.device bridge_name vlan_id with
    | [] =>
      if f.writeVlan vlan_id then
        { st with events := st.events ++ [.vlanAddError vlan_id] }
      else
        { device := addVlan st.device bridge_name vlan_id untagged_str
          events := st.events ++ [.vlanCreated vlan_id untagged_str] }
    | e :: _ =>
      match get_id e with
      | none => { st with events := st.events ++ [.missingVlanId vlan_id] }
      | some vlan_entry_id =>
        let current_tagged := (lookupF e "tagged").getD ""
        let tagged_array := tagged_to_array current_tagged
        let new_tagged_array := tagged_array.filter (fun t => !(untagged_list.contains t))
        let final_tagged_str := array_to_string new_tagged_array
        if f.writeVlan vlan_id then
          { st with events := st.events ++ [.vlanSetError vlan_id] }
        else
          { device := setVlans st.device vlan_entry_id untagged_str final_tagged_str
            events := st.events ++ [.vlanUpdated vlan_id untagged_str final_tagged_str] }

/-- The whole VLAN loop, over the inverted VLAN map in insertion order. -/
def runVlans (f : Faults) (bridge_name : String) (st : VState)
    (vlan_map : List (String × List String)) : VState :=
  vlan_map.foldl (stepVlan f bridge_name) st

/-- Result of one full reconciliation run. -/
structure RunResult where
  device : Device
  vmap : List (String × List String)
  events : List Event
  deriving DecidableEq

/-- `apply_switch_config` (source lines 53-181), after the connection has
been established: the interface-configuration pass followed by the VLAN
pass. -/
def apply_switch_config (f : Faults) (bridge_name : String)
    (interface_configs : List String) (dev : Device) : RunResult :=
  let p := runPorts f bridge_name ⟨dev, [], []⟩ interface_configs
  let v := runVlans f bridge_name ⟨p.device, p.events⟩ p.vmap
  ⟨v.device, p.vmap, v.events⟩

/-- Spec-level VlanMapBuilder (§4.2): process the records in input order and
append each interface name to the list keyed by its pvid. -/
def build_vlan_map (interface_configs : List String) : List (String × List String) :=
  interface_configs.foldl (fun m c =>
    match parse_config c with
    | .ok (iface, pvid, _, _) => insertAppend m pvid iface
    | .error _ => m) []

/-- The per-port values the engine manages, as read back from the device
through the engine's own query: `none` when no entry matches, otherwise the
`pvid`, `frame-types` and `ingress-filtering` fields of the first match. -/
def portValues (dev : Device) (bridge iface : String) :
    Option (Option String × Option String × Option String) :=
  (getPorts dev bridge iface).head?.map (fun e =>
    (lookupF e "pvid", lookupF e "frame-types", lookupF e "ingress-filtering"))

/-- The per-VLAN values the engine manages: the `untagged` field and the
`tagged` field (read as the engine reads it, an absent field being `""`) of
the first matching entry. -/
def vlanValues (dev : Device) (bridge vlan_id : String) :
    Option (Option String × String) :=
  (getVlans dev bridge vlan_id).head?.map (fun e =>
    (lookupF e "untagged", (lookupF e "tagged").getD ""))

/-- No two distinct entries of a table carry the same resolvable identifier
(identifiers are the device's primary keys). -/
def UniqueIds (l : List Entry) : Prop :=
  ∀ e1 ∈ l, ∀ e2 ∈ l, get_id e1 ≠ none → get_id e1 = get_id e2 → e1 = e2

/-- No present entry carries an identifier the device has yet to generate. -/
def FreshIds (dev : Device) : Prop :=
  ∀ e, (e ∈ dev.ports ∨ e ∈ dev.vlans) → ∀ n, dev.nextId ≤ n → get_id e ≠ some (mkId n)

/-- Well-formedness of a device state: identifiers are primary keys and the
generator is fresh.  Every reachable state of a real device satisfies it. -/
def WF (dev : Device) : Prop :=
  UniqueIds dev.ports ∧ UniqueIds dev.vlans ∧ FreshIds dev

/-- The empty device. -/
def emptyDevice : Device := ⟨[], [], 0⟩

/-! ### Basic lemmas about entries and fields -/

theorem lookupF_setField_self (e : Entry) (k v : String) :
    lookupF (setField e k v) k = some v := by
  induction e with
  | nil => simp [setField, lookupF]
  | cons p rest ih =>
    obtain ⟨k0, v0⟩ := p
    by_cases h : k0 = k
    · simp [setField, h, lookupF]
    · simp [setField, h, lookupF, ih]

theorem lookupF_setField_ne (e : Entry) (k v k' : String) (h : k' ≠ k) :
    lookupF (setField e k v) k' = lookupF e k' := by
  induction e with
  | nil => simp [setField, lookupF, Ne.symm h]
  | cons p rest ih =>
    obtain ⟨k0, v0⟩ := p
    by_cases h0 : k0 = k
    · subst h0
      simp [setField, lookupF, Ne.symm h]
    · by_cases h1 : k0 = k'
      · simp [setField, h0, lookupF, h1, h]
      · simp [setField, h0, lookupF, h1, ih]

theorem get_id_updPortFields (e : Entry) (p ft ing : String) :
    get_id (updPortFields e p ft ing) = get_id e := by
  unfold get_id updPortFields
  rw [lookupF_setField_ne _ _ _ _ (by decide), lookupF_setField_ne _ _ _ _ (by decide),
    lookupF_setField_ne _ _ _ _ (by decide), lookupF_setField_ne _ _ _ _ (by decide),
    lookupF_setField_ne _ _ _ _ (by decide), lookupF_setField_ne _ _ _ _ (by decide)]

theorem get_id_updVlanFields (e : Entry) (u t : String) :
    get_id (updVlanFields e u t) = get_id e := by
  unfold get_id updVlanFields
  rw [lookupF_setField_ne _ _ _ _ (by decide), lookupF_setField_ne _ _ _ _ (by decide),
    lookupF_setField_ne _ _ _ _ (by decide), lookupF_setField_ne _ _ _ _ (by decide)]

theorem lookupF_updPortFields_key (e : Entry) (p ft ing : String) (k : String)
    (h1 : k ≠ "pvid") (h2 : k ≠ "frame-types") (h3 : k ≠ "ingress-filtering") :
    lookupF (updPortFields e p ft ing) k = lookupF e k := by
  unfold updPortFields
  rw [lookupF_setField_ne _ _ _ _ h3, lookupF_setField_ne _ _ _ _ h2,
    lookupF_setField_ne _ _ _ _ h1]

theorem lookupF_updVlanFields_key (e : Entry) (u t : String) (k : String)
    (h1 : k ≠ "untagged") (h2 : k ≠ "tagged") :
    lookupF (updVlanFields e u t) k = lookupF e k := by
  unfold updVlanFields
  rw [lookupF_setField_ne _ _ _ _ h2, lookupF_setField_ne _ _ _ _ h1]

theorem lookupF_updPortFields_vals (e : Entry) (p ft ing : String) :
    lookupF (updPortFields e p ft ing) "pvid" = some p ∧
    lookupF (updPortFields e p ft ing) "frame-types" = some ft ∧
    lookupF (updPortFields e p ft ing) "ingress-filtering" = some ing := by
  unfold updPortFields
  refine ⟨?_, ?_, ?_⟩
  · rw [lookupF_setField_ne _ _ _ _ (by decide), lookupF_setField_ne _ _ _ _ (by decide),
      lookupF_setField_self]
  · rw [lookupF_setField_ne _ _ _ _ (by decide), lookupF_setField_self]
  · rw [lookupF_setField_self]

theorem lookupF_updVlanFields_vals (e : Entry) (u t : String) :
    lookupF (updVlanFields e u t) "untagged" = some u ∧
    lookupF (updVlanFields e u t) "tagged" = some t := by
  unfold updVlanFields
  refine ⟨?_, ?_⟩
  · rw [lookupF_setField_ne _ _ _ _ (by decide), lookupF_setField_self]
  · rw [lookupF_setField_self]

theorem get_id_none_of_falsy (e : Entry) (h1 : isFalsy (lookupF e ".id") = true)
    (h2 : isFalsy (lookupF e "id") = true) : get_id e = none := by
  unfold get_id
  simp [h1, h2]

theorem runPorts_cons (f : Faults) (b : String) (st : PState) (c : String) (cs : List String) :
    runPorts f b st (c :: cs) = runPorts f b (stepPort f b st c) cs := rfl

theorem runVlans_cons (f : Faults) (b : String) (st : VState) (kv : String × List String)
    (rest : List (String × List String)) :
    runVlans f b st (kv :: rest) = runVlans f b (stepVlan f b st kv) rest := rfl

theorem foldl_invariant {α σ : Type} (P : σ → Prop) (g : σ → α → σ)
    (h : ∀ s a, P s → P (g s a)) : ∀ (l : List α) (s : σ), P s → P (l.foldl g s) := by
  intro l
  induction l with
  | nil => intro s hs; exact hs
  | cons a l ih => intro s hs; exact ih _ (h s a hs)

/-- Every iteration of the interface loop emits exactly one log event. -/
theorem stepPort_events (f : Faults) (b : String) (st : PState) (c : String) :
    ∃ ev, (stepPort f b st c).events = st.events ++ [ev] := by
  unfold stepPort
  rcases parse_config c with err | ⟨iface, pvid, ing, ft⟩
  · exact ⟨_, rfl⟩
  · simp only
    by_cases hg : f.getPort iface
    · simp [hg]
    · simp only [hg, Bool.false_eq_true, if_false]
      rcases getPorts st.device b iface with _ | ⟨e, r⟩
      · by_cases hw : f.writePort iface <;> simp [hw]
      · simp only
        rcases get_id e with _ | pid
        · exact ⟨_, rfl⟩
        · by_cases hw : f.writePort iface <;> simp [hw]

/-- Every iteration of the VLAN loop emits exactly one log event. -/
theorem stepVlan_events (f : Faults) (b : String) (st : VState) (kv : String × List String) :
    ∃ ev, (stepVlan f b st kv).events = st.events ++ [ev] := by
  obtain ⟨vlan_id, untagged⟩ := kv
  unfold stepVlan
  simp only
  by_cases hg : f.getVlan vlan_id
  · simp [hg]
  · simp only [hg, Bool.false_eq_true, if_false]
    rcases getVlans st.device b vlan_id with _ | ⟨e, r⟩
    · by_cases hw : f.writeVlan vlan_id <;> simp [hw]
    · simp only
      rcases get_id e with _ | vid
      · exact ⟨_, rfl⟩
      · by_cases hw : f.writeVlan vlan_id <;> simp [hw]

theorem runPorts_events_length (f : Faults) (b : String) :
    ∀ (cfgs : List String) (st : PState),
      (runPorts f b st cfgs).events.length = st.events.length + cfgs.length := by
  intro cfgs
  induction cfgs with
  | nil => intro st; simp [runPorts]
  | cons c cs ih =>
    intro st
    rw [runPorts_cons, ih]
    obtain ⟨ev, hev⟩ := stepPort_events f b st c
    simp [hev, Nat.add_comm, Nat.add_assoc, Nat.add_left_comm]

theorem runVlans_events_length (f : Faults) (b : String) :
    ∀ (m : List (String × List String)) (st : VState),
      (runVlans f b st m).events.length = st.events.length + m.length := by
  intro m
  induction m with
  | nil => intro st; simp [runVlans]
  | cons kv rest ih =>
    intro st
    rw [runVlans_cons, ih]
    obtain ⟨ev, hev⟩ := stepVlan_events f b st kv
    simp [hev, Nat.add_comm, Nat.add_assoc, Nat.add_left_comm]

/-- The interface-configuration loop never touches the VLAN table. -/
theorem stepPort_vlans (f : Faults) (b : String) (st : PState) (c : String) :
    (stepPort f b st c).device.vlans = st.device.vlans := by
  unfold stepPort
  rcases parse_config c with err | ⟨iface, pvid, ing, ft⟩
  · rfl
  · simp only
    by_cases hg : f.getPort iface
    · simp [hg]
    · simp only [hg, Bool.false_eq_true, if_false]
      rcases getPorts st.device b iface with _ | ⟨e, r⟩
      · by_cases hw : f.writePort iface <;> simp [hw, addPort, setPorts]
      · simp only
        rcases get_id e with _ | pid
        · rfl
        · by_cases hw : f.writePort iface <;> simp [hw, setPorts]

theorem runPorts_vlans (f : Faults) (b : String) :
    ∀ (cfgs : List String) (st : PState),
      (runPorts f b st cfgs).device.vlans = st.device.vlans := by
  intro cfgs
  induction cfgs with
  | nil => intro st; rfl
  | cons c cs ih => intro st; rw [runPorts_cons, ih, stepPort_vlans]

/-- The VLAN loop never touches the bridge-port table. -/
theorem stepVlan_ports (f : Faults) (b : String) (st : VState) (kv : String × List String) :
    (stepVlan f b st kv).device.ports = st.device.ports := by
  obtain ⟨vlan_id, untagged⟩ := kv
  unfold stepVlan
  simp only
  by_cases hg : f.getVlan vlan_id
  · simp [hg]
  · simp only [hg, Bool.false_eq_true, if_false]
    rcases getVlans st.device b vlan_id with _ | ⟨e, r⟩
    · by_cases hw : f.writeVlan vlan_id <;> simp [hw, addVlan, setVlans]
    · simp only
      rcases get_id e with _ | vid
      · rfl
      · by_cases hw : f.writeVlan vlan_id <;> simp [hw, setVlans]

theorem runVlans_ports (f : Faults) (b : String) :
    ∀ (m : List (String × List String)) (st : VState),
      (runVlans f b st m).device.ports = st.device.ports := by
  intro m
  induction m with
  | nil => intro st; rfl
  | cons kv rest ih => intro st; rw [runVlans_cons, ih, stepVlan_ports]

/-! ### Claim C4: the parse_config contract -/

/-- **C4.** `parse_config` splits its input on commas and succeeds exactly
when the split yields 4 fields, returning them in order; any other field
count fails with an error identifying the offending line. -/
theorem c4_parse_config_contract (s : String) :
    (∀ a b c d, parse_config s = .ok (a, b, c, d) ↔ splitComma s = [a, b, c, d]) ∧
    ((splitComma s).length ≠ 4 →
      parse_config s = .error ("Invalid config string format: " ++ s)) := by
  constructor
  · intro a b c d
    rcases hs : splitComma s with _ | ⟨a0, _ | ⟨b0, _ | ⟨c0, _ | ⟨d0, _ | ⟨e0, rest⟩⟩⟩⟩⟩ <;>
      simp [parse_config, hs]
  · intro hlen
    rcases hs : splitComma s with _ | ⟨a0, _ | ⟨b0, _ | ⟨c0, _ | ⟨d0, _ | ⟨e0, rest⟩⟩⟩⟩⟩ <;>
      simp_all [parse_config]

/-- **C4 witness.** The spec's own examples: the well-formed line parses to
its four fields, and the 3-field and 5-field lines fail with the error
naming the line. -/
theorem c4_parse_config_contract_witness :
    parse_config "eth1,10,yes,admit-all" = .ok ("eth1", "10", "yes", "admit-all") ∧
    parse_config "eth1,10,yes" = .error "Invalid config string format: eth1,10,yes" ∧
    parse_config "eth1,10,yes,admit-all,extra" =
      .error "Invalid config string format: eth1,10,yes,admit-all,extra" := by
  refine ⟨?_, ?_, ?_⟩
  · exact ((c4_parse_config_contract "eth1,10,yes,admit-all").1 _ _ _ _).2 (by rfl)
  · exact (c4_parse_config_contract "eth1,10,yes").2 (by decide)
  · exact (c4_parse_config_contract "eth1,10,yes,admit-all,extra").2 (by decide)

/-! ### Claim C10: get_id treats falsy identifier values as missing -/

/-- **C10.** `get_id` treats a falsy identifier value like a missing field:
a present-but-empty `.id` falls back to `id`, and when `id` is also absent
or empty the entry has no identifier, in which case the engine logs the
error and skips the record without mutating anything. -/
theorem c10_get_id_falsy :
    (∀ (e : Entry) (v : String), lookupF e ".id" = some "" → lookupF e "id" = some v →
      v ≠ "" → get_id e = some v) ∧
    (∀ e : Entry, isFalsy (lookupF e ".id") = true → isFalsy (lookupF e "id") = true →
      get_id e = none) ∧
    (∀ (f : Faults) (bridge : String) (st : PState) (cfg iface pvid ing ft : String)
      (e : Entry) (r : List Entry),
      parse_config cfg = .ok (iface, pvid, ing, ft) → f.getPort iface = false →
      getPorts st.device bridge iface = e :: r →
      isFalsy (lookupF e ".id") = true → isFalsy (lookupF e "id") = true →
      stepPort f bridge st cfg = { st with events := st.events ++ [.missingPortId iface] }) := by
  have hnone : ∀ e : Entry, isFalsy (lookupF e ".id") = true →
      isFalsy (lookupF e "id") = true → get_id e = none := by
    intro e h1 h2
    unfold get_id
    simp [h1, h2]
  refine ⟨?_, hnone, ?_⟩
  · intro e v h1 h2 hv
    unfold get_id
    simp [h1, isFalsy, h2, hv]
  · intro f bridge st cfg iface pvid ing ft e r hp hg he h1 h2
    unfold stepPort
    rw [hp]
    simp only [hg, Bool.false_eq_true, if_false, he, hnone e h1 h2]

/-- **C10 witness.** On `{".id": "", "id": "x"}` the fallback fires; on
`{".id": "", "id": ""}` the entry has no identifier and the reconciliation
step only logs the missing-identifier error. -/
theorem c10_get_id_falsy_witness :
    get_id [(".id", ""), ("id", "x")] = some "x" ∧
    get_id [(".id", ""), ("id", "")] = none ∧
    stepPort noFaults "br"
        ⟨⟨[[(".id", ""), ("id", ""), ("bridge", "br"), ("interface", "eth1")]], [], 0⟩, [], []⟩
        "eth1,10,yes,admit-all" =
      ⟨⟨[[(".id", ""), ("id", ""), ("bridge", "br"), ("interface", "eth1")]], [], 0⟩, [],
        [.missingPortId "eth1"]⟩ := by
  refine ⟨?_, ?_, ?_⟩
  · exact c10_get_id_falsy.1 [(".id", ""), ("id", "x")] "x" (by decide) (by decide) (by decide)
  · exact c10_get_id_falsy.2.1 [(".id", ""), ("id", "")] (by decide) (by decide)
  · exact c10_get_id_falsy.2.2 noFaults "br"
      ⟨⟨[[(".id", ""), ("id", ""), ("bridge", "br"), ("interface", "eth1")]], [], 0⟩, [], []⟩
      "eth1,10,yes,admit-all" "eth1" "10" "yes" "admit-all"
      [(".id", ""), ("id", ""), ("bridge", "br"), ("interface", "eth1")] [] rfl rfl rfl
      (by decide) (by decide)

/-! ### Claim C5: the VLAN creation path -/

/-- **C5.** For a VLAN id with no existing device entry, the VLAN pass issues
exactly one create, carrying the bridge name, the VLAN id and the comma-join
of the desired untagged list, and the created entry carries no `tagged`
field. -/
theorem c5_vlan_creation (f : Faults) (bridge : String) (st : VState)
    (vlan_id : String) (untagged : List String)
    (hg : f.getVlan vlan_id = false) (hw : f.writeVlan vlan_id = false)
    (habs : getVlans st.device bridge vlan_id = []) :
    stepVlan f bridge st (vlan_id, untagged) =
      ⟨addVlan st.device bridge vlan_id (array_to_string untagged),
       st.events ++ [.vlanCreated vlan_id (array_to_string untagged)]⟩ ∧
    (addVlan st.device bridge vlan_id (array_to_string untagged)).vlans =
      st.device.vlans ++
        [newVlanEntry st.device.nextId bridge vlan_id (array_to_string untagged)] ∧
    lookupF (newVlanEntry st.device.nextId bridge vlan_id (array_to_string untagged))
        "tagged" = none ∧
    lookupF (newVlanEntry st.device.nextId bridge vlan_id (array_to_string untagged))
        "untagged" = some (array_to_string untagged) ∧
    lookupF (newVlanEntry st.device.nextId bridge vlan_id (array_to_string untagged))
        "vlan-ids" = some vlan_id ∧
    lookupF (newVlanEntry st.device.nextId bridge vlan_id (array_to_string untagged))
        "bridge" = some bridge := by
  refine ⟨?_, rfl, ?_, ?_, ?_, ?_⟩
  · unfold stepVlan
    simp [hg, habs, hw]
  all_goals simp [newVlanEntry, lookupF]

/-- **C5 witness.** The spec's creation example: VLAN `30` absent from the
device, desired untagged `["eth9"]`: a create with `untagged="eth9"` and no
`tagged` field is issued. -/
theorem c5_vlan_creation_witness :
    stepVlan noFaults "br" ⟨emptyDevice, []⟩ ("30", ["eth9"]) =
      ⟨addVlan emptyDevice "br" "30" "eth9", [.vlanCreated "30" "eth9"]⟩ ∧
    (addVlan emptyDevice "br" "30" "eth9").vlans = [newVlanEntry 0 "br" "30" "eth9"] ∧
    lookupF (newVlanEntry 0 "br" "30" "eth9") "tagged" = none ∧
    lookupF (newVlanEntry 0 "br" "30" "eth9") "untagged" = some "eth9" := by
  have h := c5_vlan_creation noFaults "br" ⟨emptyDevice, []⟩ "30" ["eth9"] rfl rfl rfl
  exact ⟨h.1.trans (by decide), (by decide), h.2.2.1.trans (by decide),
    h.2.2.2.1.trans (by decide)⟩

/-! ### Claim C1: the VLAN update path -/

/-- **C1 counterexample.** The claim as stated reads the pre-existing
tagged string by comma-split with only the empty string treated as the
empty list; at `tagged=" "` that predicts the update keeps `tagged=" "`
(the split is `[" "]` and nothing in it is desired untagged), but line
156's `strip()` guard blanks any whitespace-only string, so the code
issues `tagged=""`. -/
theorem c1_vlan_update_counterexample :
    (stepVlan noFaults "br"
        ⟨⟨[], [[(".id", "v1"), ("bridge", "br"), ("vlan-ids", "10"),
          ("tagged", " "), ("untagged", "")]], 0⟩, []⟩ ("10", ["eth1"])).events =
      [.vlanUpdated "10" "eth1" ""] ∧
    array_to_string ((splitComma " ").filter (fun t => !(["eth1"].contains t))) = " " ∧
    (" " : String) ≠ "" := by
  decide

/-- **C1 (amended).** For a VLAN id with an existing, identifier-resolvable
device entry, the VLAN pass issues exactly one update whose `untagged`
field is the comma-join of this run's desired untagged list and whose
`tagged` field is the comma-join of the entry's pre-existing tagged list —
comma-split, except that a string with no character outside Python's
whitespace class (one whose `strip()` is empty, not merely the empty
string) is read as the empty list — with every member of the desired
untagged list removed; the surviving tagged interfaces keep their relative
order (the new tagged list is a sublist of the old one). -/
theorem c1_vlan_update (f : Faults) (bridge : String) (st : VState)
    (vlan_id : String) (untagged : List String) (e : Entry) (r : List Entry) (vid : String)
    (hg : f.getVlan vlan_id = false) (hw : f.writeVlan vlan_id = false)
    (he : getVlans st.device bridge vlan_id = e :: r) (hid : get_id e = some vid) :
    stepVlan f bridge st (vlan_id, untagged) =
      ⟨setVlans st.device vid (array_to_string untagged)
         (array_to_string ((tagged_to_array ((lookupF e "tagged").getD "")).filter
           (fun t => !(untagged.contains t)))),
       st.events ++ [.vlanUpdated vlan_id (array_to_string untagged)
         (array_to_string ((tagged_to_array ((lookupF e "tagged").getD "")).filter
           (fun t => !(untagged.contains t))))]⟩ ∧
    ((tagged_to_array ((lookupF e "tagged").getD "")).filter
        (fun t => !(untagged.contains t))).Sublist
      (tagged_to_array ((lookupF e "tagged").getD "")) ∧
    (∀ x, x ∈ (tagged_to_array ((lookupF e "tagged").getD "")).filter
        (fun t => !(untagged.contains t)) ↔
      x ∈ tagged_to_array ((lookupF e "tagged").getD "") ∧ x ∉ untagged) := by
  refine ⟨?_, List.filter_sublist _, ?_⟩
  · unfold stepVlan
    simp [hg, he, hid, hw]
  · intro x
    rw [List.mem_filter]
    constructor
    · rintro ⟨hx, hb⟩
      refine ⟨hx, fun hmem => ?_⟩
      rw [Bool.not_eq_true', ← Bool.not_eq_true] at hb
      exact hb (List.elem_iff.2 hmem)
    · rintro ⟨hx, hb⟩
      refine ⟨hx, ?_⟩
      rw [Bool.not_eq_true', ← Bool.not_eq_true]
      intro hc
      exact hb (List.elem_iff.1 hc)

/-- **C1 witness.** The spec's tagged-diff example: existing entry with
`tagged="eth2,eth5"`, desired `untagged=["eth2"]`: the issued update carries
`untagged="eth2"` and `tagged="eth5"`. -/
theorem c1_vlan_update_witness :
    stepVlan noFaults "br"
        ⟨⟨[], [[(".id", "v1"), ("bridge", "br"), ("vlan-ids", "10"),
            ("tagged", "eth2,eth5"), ("untagged", "")]], 5⟩, []⟩
        ("10", ["eth2"]) =
      ⟨setVlans ⟨[], [[(".id", "v1"), ("bridge", "br"), ("vlan-ids", "10"),
            ("tagged", "eth2,eth5"), ("untagged", "")]], 5⟩ "v1" "eth2" "eth5",
       [.vlanUpdated "10" "eth2" "eth5"]⟩ := by
  have h := (c1_vlan_update noFaults "br"
    ⟨⟨[], [[(".id", "v1"), ("bridge", "br"), ("vlan-ids", "10"),
        ("tagged", "eth2,eth5"), ("untagged", "")]], 5⟩, []⟩
    "10" ["eth2"]
    [(".id", "v1"), ("bridge", "br"), ("vlan-ids", "10"),
      ("tagged", "eth2,eth5"), ("untagged", "")]
    [] "v1" rfl rfl rfl rfl).1
  exact h.trans (by decide)

/-! ### Claim C9: what makes it into the VLAN map -/

/-- Does the first entry of a `get` result have an unresolvable identifier? -/
def headIdMissing : List Entry → Bool
  | [] => false
  | e :: _ => (get_id e).isNone

/-- **C9.** A successfully parsed interface is appended to the VLAN map
under its pvid exactly when it is *not* the case that the bridge-port `get`
succeeded and returned a first entry whose identifier cannot be resolved:
that case (`continue`) skips the append, whereas an exception during the
bridge-port get/set/add still reaches the append. -/
theorem c9_vmap_append_condition (f : Faults) (bridge : String) (st : PState)
    (cfg iface pvid ing ft : String)
    (hp : parse_config cfg = .ok (iface, pvid, ing, ft)) :
    (stepPort f bridge st cfg).vmap =
      if f.getPort iface = false ∧ headIdMissing (getPorts st.device bridge iface) = true
      then st.vmap
      else insertAppend st.vmap pvid iface := by
  unfold stepPort
  rw [hp]
  simp only
  by_cases hg : f.getPort iface
  · simp [hg]
  · simp only [hg, Bool.false_eq_true, if_false]
    rcases he : getPorts st.device bridge iface with _ | ⟨e, r⟩
    · simp only [headIdMissing]
      by_cases hw : f.writePort iface <;> simp [hw]
    · simp only [headIdMissing]
      split
      · rename_i hnone
        simp [hnone]
      · rename_i pid hsome
        simp only [hsome, Option.isNone_some, Bool.false_eq_true, and_false, if_false]
        by_cases hw : f.writePort iface <;> simp [hw]

/-- **C9 witness.** With a faulting bridge-port API the interface is still
appended to the VLAN map, while a found entry without a resolvable
identifier suppresses the append. -/
theorem c9_vmap_append_condition_witness :
    (stepPort ⟨fun _ => true, fun _ => false, fun _ => false, fun _ => false⟩ "br"
        ⟨emptyDevice, [], []⟩ "eth1,10,yes,admit-all").vmap = [("10", ["eth1"])] ∧
    (stepPort noFaults "br"
        ⟨⟨[[("bridge", "br"), ("interface", "eth1")]], [], 0⟩, [], []⟩
        "eth1,10,yes,admit-all").vmap = [] := by
  constructor
  · have h := c9_vmap_append_condition
      ⟨fun _ => true, fun _ => false, fun _ => false, fun _ => false⟩ "br"
      ⟨emptyDevice, [], []⟩ "eth1,10,yes,admit-all" "eth1" "10" "yes" "admit-all" rfl
    exact h.trans (by decide)
  · have h := c9_vmap_append_condition noFaults "br"
      ⟨⟨[[("bridge", "br"), ("interface", "eth1")]], [], 0⟩, [], []⟩
      "eth1,10,yes,admit-all" "eth1" "10" "yes" "admit-all" rfl
    exact h.trans (by decide)

/-! ### Claim C8: entries with no identifier are skipped without mutation -/

/-- **C8.** A `get` result (bridge-port or VLAN) whose first entry has
neither a `.id` nor an `id` field causes that record to be skipped: only the
missing-identifier error is logged, no `add`/`set` is attempted (device,
and for ports also the VLAN map, are unchanged), and the loop continues
with the remaining records. -/
theorem c8_missing_id_skips (f : Faults) (bridge : String) :
    (∀ (st : PState) (cfg iface pvid ing ft : String) (e : Entry) (r : List Entry)
      (cs : List String),
      parse_config cfg = .ok (iface, pvid, ing, ft) → f.getPort iface = false →
      getPorts st.device bridge iface = e :: r →
      lookupF e ".id" = none → lookupF e "id" = none →
      stepPort f bridge st cfg = { st with events := st.events ++ [.missingPortId iface] } ∧
      runPorts f bridge st (cfg :: cs) =
        runPorts f bridge { st with events := st.events ++ [.missingPortId iface] } cs) ∧
    (∀ (st : VState) (vlan_id : String) (untagged : List String) (e : Entry)
      (r : List Entry) (rest : List (String × List String)),
      f.getVlan vlan_id = false →
      getVlans st.device bridge vlan_id = e :: r →
      lookupF e ".id" = none → lookupF e "id" = none →
      stepVlan f bridge st (vlan_id, untagged) =
        { st with events := st.events ++ [.missingVlanId vlan_id] } ∧
      runVlans f bridge st ((vlan_id, untagged) :: rest) =
        runVlans f bridge { st with events := st.events ++ [.missingVlanId vlan_id] } rest) := by
  constructor
  · intro st cfg iface pvid ing ft e r cs hp hg he h1 h2
    have hid : get_id e = none := get_id_none_of_falsy e (by simp [h1, isFalsy]) (by simp [h2, isFalsy])
    have hstep : stepPort f bridge st cfg =
        { st with events := st.events ++ [.missingPortId iface] } := by
      unfold stepPort
      rw [hp]
      simp only [hg, Bool.false_eq_true, if_false, he, hid]
    exact ⟨hstep, by rw [runPorts_cons, hstep]⟩
  · intro st vlan_id untagged e r rest hg he h1 h2
    have hid : get_id e = none := get_id_none_of_falsy e (by simp [h1, isFalsy]) (by simp [h2, isFalsy])
    have hstep : stepVlan f bridge st (vlan_id, untagged) =
        { st with events := st.events ++ [.missingVlanId vlan_id] } := by
      unfold stepVlan
      simp only [hg, Bool.false_eq_true, if_false, he, hid]
    exact ⟨hstep, by rw [runVlans_cons, hstep]⟩

/-- **C8 witness.** A bridge-port entry and a VLAN entry carrying neither
identifier field: both records are skipped with only the error logged, the
device untouched, and the loop equation continues over the remaining
records. -/
theorem c8_missing_id_skips_witness :
    stepPort noFaults "br" ⟨⟨[[("bridge", "br"), ("interface", "eth1")]], [], 0⟩, [], []⟩
        "eth1,10,yes,admit-all" =
      ⟨⟨[[("bridge", "br"), ("interface", "eth1")]], [], 0⟩, [], [.missingPortId "eth1"]⟩ ∧
    stepVlan noFaults "br" ⟨⟨[], [[("bridge", "br"), ("vlan-ids", "10")]], 0⟩, []⟩
        ("10", ["eth1"]) =
      ⟨⟨[], [[("bridge", "br"), ("vlan-ids", "10")]], 0⟩, [.missingVlanId "10"]⟩ := by
  constructor
  · exact ((c8_missing_id_skips noFaults "br").1
      ⟨⟨[[("bridge", "br"), ("interface", "eth1")]], [], 0⟩, [], []⟩
      "eth1,10,yes,admit-all" "eth1" "10" "yes" "admit-all"
      [("bridge", "br"), ("interface", "eth1")] [] [] rfl rfl rfl rfl rfl).1
  · exact ((c8_missing_id_skips noFaults "br").2
      ⟨⟨[], [[("bridge", "br"), ("vlan-ids", "10")]], 0⟩, []⟩
      "10" ["eth1"] [("bridge", "br"), ("vlan-ids", "10")] [] [] rfl rfl rfl rfl).1

/-! ### Claim C6: per-record fault isolation and run completion -/

/-- **C6.** An API failure for one interface or one VLAN id is logged as one
error event, leaves the device exactly as it was, and the loop equationally
proceeds over the remaining records; independently of any faults, the run
processes every record to completion, emitting exactly one event per input
line plus one per VLAN id. -/
theorem c6_fault_isolation (f : Faults) (bridge : String) :
    (∀ (dev : Device) (cfgs : List String),
      (apply_switch_config f bridge cfgs dev).events.length =
        cfgs.length + (apply_switch_config f bridge cfgs dev).vmap.length) ∧
    (∀ (st : PState) (cfg iface pvid ing ft : String) (cs : List String),
      parse_config cfg = .ok (iface, pvid, ing, ft) →
      (f.getPort iface = true ∨ f.writePort iface = true) →
      (stepPort f bridge st cfg).device = st.device ∧
      (∃ ev, (stepPort f bridge st cfg).events = st.events ++ [ev] ∧
        (ev = .apiErrorPort iface ∨ ev = .missingPortId iface)) ∧
      runPorts f bridge st (cfg :: cs) = runPorts f bridge (stepPort f bridge st cfg) cs) ∧
    (∀ (st : VState) (vlan_id : String) (untagged : List String)
      (rest : List (String × List String)),
      (f.getVlan vlan_id = true ∨ f.writeVlan vlan_id = true) →
      (stepVlan f bridge st (vlan_id, untagged)).device = st.device ∧
      (∃ ev, (stepVlan f bridge st (vlan_id, untagged)).events = st.events ++ [ev] ∧
        (ev = .vlanGetError vlan_id ∨ ev = .vlanAddError vlan_id ∨
          ev = .vlanSetError vlan_id ∨ ev = .missingVlanId vlan_id)) ∧
      runVlans f bridge st ((vlan_id, untagged) :: rest) =
        runVlans f bridge (stepVlan f bridge st (vlan_id, untagged)) rest) := by
  refine ⟨?_, ?_, ?_⟩
  · intro dev cfgs
    have h1 : (apply_switch_config f bridge cfgs dev).events =
        (runVlans f bridge ⟨(runPorts f bridge ⟨dev, [], []⟩ cfgs).device,
          (runPorts f bridge ⟨dev, [], []⟩ cfgs).events⟩
          (runPorts f bridge ⟨dev, [], []⟩ cfgs).vmap).events := rfl
    have h2 : (apply_switch_config f bridge cfgs dev).vmap =
        (runPorts f bridge ⟨dev, [], []⟩ cfgs).vmap := rfl
    rw [h1, h2, runVlans_events_length]
    simp only [runPorts_events_length]
    simp [Nat.add_comm]
  · intro st cfg iface pvid ing ft cs hp hf
    refine ⟨?_, ?_, rfl⟩ <;> unfold stepPort <;> rw [hp] <;> simp only
    · by_cases hg : f.getPort iface
      · simp [hg]
      · rcases hf with hf | hf
        · exact absurd hf hg
        · simp only [hg, Bool.false_eq_true, if_false]
          rcases getPorts st.device bridge iface with _ | ⟨e, r⟩
          · simp [hf]
          · simp only
            rcases get_id e with _ | pid
            · rfl
            · simp [hf]
    · by_cases hg : f.getPort iface
      · exact ⟨_, by simp [hg], Or.inl rfl⟩
      · rcases hf with hf | hf
        · exact absurd hf hg
        · simp only [hg, Bool.false_eq_true, if_false]
          rcases getPorts st.device bridge iface with _ | ⟨e, r⟩
          · exact ⟨_, by simp [hf], Or.inl rfl⟩
          · simp only
            rcases get_id e with _ | pid
            · exact ⟨_, rfl, Or.inr rfl⟩
            · exact ⟨_, by simp [hf], Or.inl rfl⟩
  · intro st vlan_id untagged rest hf
    refine ⟨?_, ?_, rfl⟩ <;> unfold stepVlan <;> simp only
    · by_cases hg : f.getVlan vlan_id
      · simp [hg]
      · rcases hf with hf | hf
        · exact absurd hf hg
        · simp only [hg, Bool.false_eq_true, if_false]
          rcases getVlans st.device bridge vlan_id with _ | ⟨e, r⟩
          · simp [hf]
          · simp only
            rcases get_id e with _ | vid
            · rfl
            · simp [hf]
    · by_cases hg : f.getVlan vlan_id
      · exact ⟨_, by simp [hg], Or.inl rfl⟩
      · rcases hf with hf | hf
        · exact absurd hf hg
        · simp only [hg, Bool.false_eq_true, if_false]
          rcases getVlans st.device bridge vlan_id with _ | ⟨e, r⟩
          · exact ⟨_, by simp [hf], Or.inr (Or.inl rfl)⟩
          · simp only
            rcases get_id e with _ | vid
            · exact ⟨_, rfl, Or.inr (Or.inr (Or.inr rfl))⟩
            · exact ⟨_, by simp [hf], Or.inr (Or.inr (Or.inl rfl))⟩

/-- **C6 witness.** With the bridge-port API faulting on `eth1` and the VLAN
API faulting on writes to VLAN `10`, both steps leave the device unchanged,
log one error each, and the loops continue; the full faulty run still emits
one event per record. -/
theorem c6_fault_isolation_witness :
    (apply_switch_config ⟨fun i => i == "eth1", fun _ => false, fun _ => false,
        fun v => v == "10"⟩ "br" ["eth1,10,yes,admit-all", "bad"] emptyDevice).events.length =
      2 + (apply_switch_config ⟨fun i => i == "eth1", fun _ => false, fun _ => false,
        fun v => v == "10"⟩ "br" ["eth1,10,yes,admit-all", "bad"] emptyDevice).vmap.length ∧
    (stepPort ⟨fun i => i == "eth1", fun _ => false, fun _ => false, fun v => v == "10"⟩
        "br" ⟨emptyDevice, [], []⟩ "eth1,10,yes,admit-all").device = emptyDevice ∧
    (stepVlan ⟨fun i => i == "eth1", fun _ => false, fun _ => false, fun v => v == "10"⟩
        "br" ⟨emptyDevice, []⟩ ("10", ["eth1"])).device = emptyDevice := by
  refine ⟨?_, ?_, ?_⟩
  · exact (c6_fault_isolation _ "br").1 emptyDevice ["eth1,10,yes,admit-all", "bad"]
  · exact ((c6_fault_isolation _ "br").2.1 ⟨emptyDevice, [], []⟩ "eth1,10,yes,admit-all"
      "eth1" "10" "yes" "admit-all" [] rfl (Or.inl rfl)).1
  · exact ((c6_fault_isolation _ "br").2.2 ⟨emptyDevice, []⟩ "10" ["eth1"] []
      (Or.inr rfl)).1

/-! ### Claim C3: the VLAN map is an input-order append fold -/

theorem mkId_ne_empty (n : Nat) : mkId n ≠ "" := by
  unfold mkId
  intro h
  have := congrArg String.data h
  simp at this

theorem mkId_injective (m n : Nat) (h : mkId m = mkId n) : m = n := by
  have := congrArg String.data h
  simp only [mkId] at this
  have hlen := congrArg List.length this
  simpa using hlen

theorem get_id_newPortEntry (n : Nat) (b i p ft ing : String) :
    get_id (newPortEntry n b i p ft ing) = some (mkId n) := by
  unfold get_id newPortEntry
  simp [lookupF, isFalsy, mkId_ne_empty n]

theorem get_id_newVlanEntry (n : Nat) (b v u : String) :
    get_id (newVlanEntry n b v u) = some (mkId n) := by
  unfold get_id newVlanEntry
  simp [lookupF, isFalsy, mkId_ne_empty n]

/-- All bridge-port entries carry resolvable identifiers. -/
def GoodPortIds (dev : Device) : Prop := ∀ e ∈ dev.ports, get_id e ≠ none

theorem mem_of_mem_getPorts (dev : Device) (b i : String) (e : Entry)
    (h : e ∈ getPorts dev b i) : e ∈ dev.ports := (List.mem_filter.1 h).1

theorem mem_of_mem_getVlans (dev : Device) (b v : String) (e : Entry)
    (h : e ∈ getVlans dev b v) : e ∈ dev.vlans := (List.mem_filter.1 h).1

theorem stepPort_goodPortIds (f : Faults) (b : String) (st : PState) (c : String)
    (h : GoodPortIds st.device) : GoodPortIds (stepPort f b st c).device := by
  unfold stepPort
  rcases parse_config c with err | ⟨iface, pvid, ing, ft⟩
  · exact h
  · simp only
    by_cases hg : f.getPort iface
    · simpa [hg] using h
    · simp only [hg, Bool.false_eq_true, if_false]
      rcases getPorts st.device b iface with _ | ⟨e, r⟩
      · by_cases hw : f.writePort iface
        · simpa [hw] using h
        · simp only [hw, Bool.false_eq_true, if_false]
          intro e' he'
          simp only [addPort, List.mem_append, List.mem_singleton] at he'
          rcases he' with he' | he'
          · exact h e' he'
          · rw [he', get_id_newPortEntry]
            simp
      · simp only
        rcases get_id e with _ | pid
        · exact h
        · by_cases hw : f.writePort iface
          · simpa [hw] using h
          · simp only [hw, Bool.false_eq_true, if_false]
            intro e' he'
            simp only [setPorts, List.mem_map] at he'
            obtain ⟨e0, he0, hupd⟩ := he'
            subst hupd
            by_cases hc : get_id e0 = some pid
            · simp [hc, get_id_updPortFields]
            · simpa [hc] using h e0 he0

/-- On a device whose port entries all have identifiers, one interface-loop
iteration transforms the VLAN map exactly as the spec's VlanMapBuilder
describes. -/
theorem stepPort_vmap_good (f : Faults) (b : String) (st : PState) (c : String)
    (h : GoodPortIds st.device) :
    (stepPort f b st c).vmap =
      match parse_config c with
      | .ok (i, p, _, _) => insertAppend st.vmap p i
      | .error _ => st.vmap := by
  unfold stepPort
  rcases parse_config c with err | ⟨iface, pvid, ing, ft⟩
  · rfl
  · simp only
    by_cases hg : f.getPort iface
    · simp [hg]
    · simp only [hg, Bool.false_eq_true, if_false]
      rcases he : getPorts st.device b iface with _ | ⟨e, r⟩
      · by_cases hw : f.writePort iface <;> simp [hw]
      · simp only
        have hmem : e ∈ st.device.ports :=
          mem_of_mem_getPorts st.device b iface e (he ▸ List.mem_cons_self e r)
        rcases hid : get_id e with _ | pid
        · exact absurd hid (h e hmem)
        · by_cases hw : f.writePort iface <;> simp [hw]

theorem runPorts_vmap_good (f : Faults) (b : String) :
    ∀ (cfgs : List String) (st : PState), GoodPortIds st.device →
      (runPorts f b st cfgs).vmap =
        cfgs.foldl (fun m c =>
          match parse_config c with
          | .ok (i, p, _, _) => insertAppend m p i
          | .error _ => m) st.vmap := by
  intro cfgs
  induction cfgs with
  | nil => intro st _; rfl
  | cons c cs ih =>
    intro st h
    rw [runPorts_cons, ih _ (stepPort_goodPortIds f b st c h), stepPort_vmap_good f b st c h]
    rfl

/-- **C3.** On a device whose port entries all have resolvable identifiers
(in particular on any device reachable by the engine itself), the VLAN map
produced by a run is exactly the input-order append fold of the parsed
records — no sorting, no deduplication — and on the spec's three-line
example it is exactly `{"10": ["eth1","eth2"], "20": ["eth3"]}`. -/
theorem c3_vlan_map_builder (f : Faults) (b : String) (dev : Device) (cfgs : List String)
    (h : GoodPortIds dev) :
    (apply_switch_config f b cfgs dev).vmap = build_vlan_map cfgs ∧
    build_vlan_map ["eth1,10,yes,admit-all", "eth2,10,yes,admit-all",
        "eth3,20,no,admit-only-vlan-tagged"] =
      [("10", ["eth1", "eth2"]), ("20", ["eth3"])] := by
  constructor
  · have hv : (apply_switch_config f b cfgs dev).vmap =
        (runPorts f b ⟨dev, [], []⟩ cfgs).vmap := rfl
    rw [hv, runPorts_vmap_good f b cfgs ⟨dev, [], []⟩ h]
    rfl
  · decide

/-- **C3 witness.** Running the engine on the spec's three-line example from
the empty device produces exactly the claimed map, in input order. -/
theorem c3_vlan_map_builder_witness :
    (apply_switch_config noFaults "br" ["eth1,10,yes,admit-all", "eth2,10,yes,admit-all",
        "eth3,20,no,admit-only-vlan-tagged"] emptyDevice).vmap =
      [("10", ["eth1", "eth2"]), ("20", ["eth3"])] := by
  have h := c3_vlan_map_builder noFaults "br" emptyDevice
    ["eth1,10,yes,admit-all", "eth2,10,yes,admit-all", "eth3,20,no,admit-only-vlan-tagged"]
    (by intro e he; simp [emptyDevice] at he)
  exact h.1.trans h.2

/-! ### Well-formedness preservation and aliasing lemmas -/

theorem uniqueIds_resolve (l : List Entry) (h : UniqueIds l) (e1 e2 : Entry)
    (he1 : e1 ∈ l) (he2 : e2 ∈ l) (r : String)
    (h1 : get_id e1 = some r) (h2 : get_id e2 = some r) : e1 = e2 :=
  h e1 he1 e2 he2 (by simp [h1]) (h1.trans h2.symm)

theorem uniqueIds_map_upd (l : List Entry) (upd : Entry → Entry)
    (hid : ∀ e, get_id (upd e) = get_id e) (h : UniqueIds l) : UniqueIds (l.map upd) := by
  intro e1 h1 e2 h2 hne heq
  obtain ⟨a1, ha1, rfl⟩ := List.mem_map.1 h1
  obtain ⟨a2, ha2, rfl⟩ := List.mem_map.1 h2
  rw [hid a1] at hne heq
  rw [hid a2] at heq
  exact congrArg upd (h a1 ha1 a2 ha2 hne heq)

theorem uniqueIds_append_new (l : List Entry) (new : Entry) (nid : String)
    (hnew : get_id new = some nid) (hfresh : ∀ e ∈ l, get_id e ≠ some nid)
    (h : UniqueIds l) : UniqueIds (l ++ [new]) := by
  intro e1 h1 e2 h2 hne heq
  rw [List.mem_append, List.mem_singleton] at h1 h2
  rcases h1 with h1 | h1 <;> rcases h2 with h2 | h2
  · exact h e1 h1 e2 h2 hne heq
  · subst h2
    rw [hnew] at heq
    exact absurd heq (hfresh e1 h1)
  · subst h1
    rw [hnew] at heq
    exact absurd heq.symm (hfresh e2 h2)
  · rw [h1, h2]

/-- The identifier of every entry is untouched by the `set` update maps. -/
theorem get_id_setPorts_upd (pid p ft ing : String) (e : Entry) :
    get_id (if get_id e = some pid then updPortFields e p ft ing else e) = get_id e := by
  by_cases hc : get_id e = some pid <;> simp [hc, get_id_updPortFields]

theorem get_id_setVlans_upd (vid u t : String) (e : Entry) :
    get_id (if get_id e = some vid then updVlanFields e u t else e) = get_id e := by
  by_cases hc : get_id e = some vid <;> simp [hc, get_id_updVlanFields]

theorem WF_setPorts (dev : Device) (pid p ft ing : String) (h : WF dev) :
    WF (setPorts dev pid p ft ing) := by
  obtain ⟨hp, hv, hf⟩ := h
  refine ⟨?_, hv, ?_⟩
  · exact uniqueIds_map_upd _ _ (get_id_setPorts_upd pid p ft ing) hp
  · intro e he n hn
    rcases he with he | he
    · simp only [setPorts, List.mem_map] at he
      obtain ⟨a, ha, rfl⟩ := he
      rw [get_id_setPorts_upd]
      exact hf a (Or.inl ha) n hn
    · exact hf e (Or.inr he) n hn

theorem WF_setVlans (dev : Device) (vid u t : String) (h : WF dev) :
    WF (setVlans dev vid u t) := by
  obtain ⟨hp, hv, hf⟩ := h
  refine ⟨hp, ?_, ?_⟩
  · exact uniqueIds_map_upd _ _ (get_id_setVlans_upd vid u t) hv
  · intro e he n hn
    rcases he with he | he
    · exact hf e (Or.inl he) n hn
    · simp only [setVlans, List.mem_map] at he
      obtain ⟨a, ha, rfl⟩ := he
      rw [get_id_setVlans_upd]
      exact hf a (Or.inr ha) n hn

theorem WF_addPort (dev : Device) (b i p ft ing : String) (h : WF dev) :
    WF (addPort dev b i p ft ing) := by
  obtain ⟨hp, hv, hf⟩ := h
  refine ⟨?_, hv, ?_⟩
  · exact uniqueIds_append_new _ _ _ (get_id_newPortEntry dev.nextId b i p ft ing)
      (fun e he => hf e (Or.inl he) dev.nextId (Nat.le_refl _)) hp
  · intro e he n hn
    simp only [addPort] at he hn
    rcases he with he | he
    · rw [List.mem_append, List.mem_singleton] at he
      rcases he with he | he
      · exact hf e (Or.inl he) n (Nat.le_of_succ_le hn)
      · subst he
        rw [get_id_newPortEntry]
        intro hcontra
        have := mkId_injective _ _ (Option.some.inj hcontra)
        omega
    · exact hf e (Or.inr he) n (Nat.le_of_succ_le hn)

theorem WF_addVlan (dev : Device) (b v u : String) (h : WF dev) :
    WF (addVlan dev b v u) := by
  obtain ⟨hp, hv, hf⟩ := h
  refine ⟨hp, ?_, ?_⟩
  · exact uniqueIds_append_new _ _ _ (get_id_newVlanEntry dev.nextId b v u)
      (fun e he => hf e (Or.inr he) dev.nextId (Nat.le_refl _)) hv
  · intro e he n hn
    simp only [addVlan] at he hn
    rcases he with he | he
    · exact hf e (Or.inl he) n (Nat.le_of_succ_le hn)
    · rw [List.mem_append, List.mem_singleton] at he
      rcases he with he | he
      · exact hf e (Or.inr he) n (Nat.le_of_succ_le hn)
      · subst he
        rw [get_id_newVlanEntry]
        intro hcontra
        have := mkId_injective _ _ (Option.some.inj hcontra)
        omega

theorem stepPort_WF (f : Faults) (b : String) (st : PState) (c : String)
    (h : WF st.device) : WF (stepPort f b st c).device := by
  unfold stepPort
  rcases parse_config c with err | ⟨iface, pvid, ing, ft⟩
  · exact h
  · simp only
    by_cases hg : f.getPort iface
    · simpa [hg] using h
    · simp only [hg, Bool.false_eq_true, if_false]
      rcases getPorts st.device b iface with _ | ⟨e, r⟩
      · by_cases hw : f.writePort iface
        · simpa [hw] using h
        · simpa [hw] using WF_addPort st.device b iface pvid ft ing h
      · simp only
        rcases get_id e with _ | pid
        · exact h
        · by_cases hw : f.writePort iface
          · simpa [hw] using h
          · simpa [hw] using WF_setPorts st.device pid pvid ft ing h

theorem stepVlan_WF (f : Faults) (b : String) (st : VState) (kv : String × List String)
    (h : WF st.device) : WF (stepVlan f b st kv).device := by
  obtain ⟨vlan_id, untagged⟩ := kv
  unfold stepVlan
  simp only
  by_cases hg : f.getVlan vlan_id
  · simpa [hg] using h
  · simp only [hg, Bool.false_eq_true, if_false]
    rcases getVlans st.device b vlan_id with _ | ⟨e, r⟩
    · by_cases hw : f.writeVlan vlan_id
      · simpa [hw] using h
      · simpa [hw] using WF_addVlan st.device b vlan_id (array_to_string untagged) h
    · simp only
      rcases get_id e with _ | vid
      · exact h
      · by_cases hw : f.writeVlan vlan_id
        · simpa [hw] using h
        · simpa [hw] using WF_setVlans st.device vid (array_to_string untagged) _ h

theorem runPorts_WF (f : Faults) (b : String) :
    ∀ (cfgs : List String) (st : PState), WF st.device →
      WF (runPorts f b st cfgs).device := by
  intro cfgs
  induction cfgs with
  | nil => intro st h; exact h
  | cons c cs ih => intro st h; exact ih _ (stepPort_WF f b st c h)

theorem runVlans_WF (f : Faults) (b : String) :
    ∀ (m : List (String × List String)) (st : VState), WF st.device →
      WF (runVlans f b st m).device := by
  intro m
  induction m with
  | nil => intro st h; exact h
  | cons kv rest ih => intro st h; exact ih _ (stepVlan_WF f b st kv h)

/-- Entries returned by a filtered port `get` carry the filter key. -/
theorem getPorts_key (dev : Device) (b i : String) (e : Entry) (h : e ∈ getPorts dev b i) :
    lookupF e "interface" = some i ∧ lookupF e "bridge" = some b := by
  have h2 := (List.mem_filter.1 h).2
  simp only [Bool.and_eq_true, beq_iff_eq] at h2
  exact h2

theorem getVlans_key (dev : Device) (b v : String) (e : Entry) (h : e ∈ getVlans dev b v) :
    lookupF e "bridge" = some b ∧ lookupF e "vlan-ids" = some v := by
  have h2 := (List.mem_filter.1 h).2
  simp only [Bool.and_eq_true, beq_iff_eq] at h2
  exact h2

/-! ### Claim C7: the engine never deletes, undesired entries stay untouched -/

/-- A port entry whose key `(bridge, interface)` is targeted by some desired
record of this run. -/
def PortDesired (b : String) (cfgs : List String) (e : Entry) : Prop :=
  lookupF e "bridge" = some b ∧
  ∃ c ∈ cfgs, ∃ i p g t, parse_config c = .ok (i, p, g, t) ∧ lookupF e "interface" = some i

/-- A VLAN entry whose key `(bridge, vlan_id)` is targeted by some desired
record of this run (the VLAN id of a record being its pvid). -/
def VlanDesired (b : String) (cfgs : List String) (e : Entry) : Prop :=
  lookupF e "bridge" = some b ∧
  ∃ c ∈ cfgs, ∃ i p g t, parse_config c = .ok (i, p, g, t) ∧ lookupF e "vlan-ids" = some p

theorem stepPort_preserves_unmatched (f : Faults) (b : String) (st : PState) (c : String)
    (hWF : UniqueIds st.device.ports) (e : Entry) (he : e ∈ st.device.ports)
    (hnm : ∀ i p g t, parse_config c = .ok (i, p, g, t) →
      ¬(lookupF e "bridge" = some b ∧ lookupF e "interface" = some i)) :
    e ∈ (stepPort f b st c).device.ports := by
  unfold stepPort
  rcases hp : parse_config c with err | ⟨iface, pvid, ing, ft⟩
  · exact he
  · simp only
    by_cases hg : f.getPort iface
    · simpa [hg] using he
    · simp only [hg, Bool.false_eq_true, if_false]
      rcases hget : getPorts st.device b iface with _ | ⟨e0, r0⟩
      · by_cases hw : f.writePort iface
        · simpa [hw] using he
        · simp only [hw, Bool.false_eq_true, if_false, addPort]
          exact List.mem_append_left _ he
      · simp only
        have he0 : e0 ∈ getPorts st.device b iface := hget ▸ List.mem_cons_self e0 r0
        have hkey := getPorts_key st.device b iface e0 he0
        have he0p : e0 ∈ st.device.ports := mem_of_mem_getPorts st.device b iface e0 he0
        rcases hid : get_id e0 with _ | pid
        · exact he
        · by_cases hw : f.writePort iface
          · simpa [hw] using he
          · simp only [hw, Bool.false_eq_true, if_false, setPorts]
            have hupd : (if get_id e = some pid then updPortFields e pvid ft ing else e) = e := by
              by_cases hc : get_id e = some pid
              · exfalso
                have heq := uniqueIds_resolve _ hWF e e0 he he0p pid hc hid
                exact hnm iface pvid ing ft hp ⟨heq ▸ hkey.2, heq ▸ hkey.1⟩
              · simp [hc]
            exact hupd ▸ List.mem_map_of_mem _ he

theorem stepVlan_preserves_unmatched (f : Faults) (b : String) (st : VState)
    (kv : String × List String) (hWF : UniqueIds st.device.vlans) (e : Entry)
    (he : e ∈ st.device.vlans)
    (hnm : ¬(lookupF e "bridge" = some b ∧ lookupF e "vlan-ids" = some kv.1)) :
    e ∈ (stepVlan f b st kv).device.vlans := by
  obtain ⟨vlan_id, untagged⟩ := kv
  unfold stepVlan
  simp only
  by_cases hg : f.getVlan vlan_id
  · simpa [hg] using he
  · simp only [hg, Bool.false_eq_true, if_false]
    rcases hget : getVlans st.device b vlan_id with _ | ⟨e0, r0⟩
    · by_cases hw : f.writeVlan vlan_id
      · simpa [hw] using he
      · simp only [hw, Bool.false_eq_true, if_false, addVlan]
        exact List.mem_append_left _ he
    · simp only
      have he0 : e0 ∈ getVlans st.device b vlan_id := hget ▸ List.mem_cons_self e0 r0
      have hkey := getVlans_key st.device b vlan_id e0 he0
      have he0v : e0 ∈ st.device.vlans := mem_of_mem_getVlans st.device b vlan_id e0 he0
      rcases hid : get_id e0 with _ | vid
      · exact he
      · have hne : get_id e ≠ some vid := by
          intro hc
          have heq := uniqueIds_resolve _ hWF e e0 he he0v vid hc hid
          exact hnm ⟨heq ▸ hkey.1, heq ▸ hkey.2⟩
        by_cases hw : f.writeVlan vlan_id
        · simpa [hw] using he
        · simp only [hw, Bool.false_eq_true, if_false, setVlans]
          refine List.mem_map.2 ⟨e, he, ?_⟩
          simp [hne]

theorem runPorts_preserves_unmatched (f : Faults) (b : String) :
    ∀ (cfgs : List String) (st : PState), WF st.device → ∀ e ∈ st.device.ports,
      ¬PortDesired b cfgs e → e ∈ (runPorts f b st cfgs).device.ports := by
  intro cfgs
  induction cfgs with
  | nil => intro st _ e he _; exact he
  | cons c cs ih =>
    intro st hwf e he hnd
    rw [runPorts_cons]
    refine ih _ (stepPort_WF f b st c hwf) e ?_ ?_
    · exact stepPort_preserves_unmatched f b st c hwf.1 e he (fun i p g t hp hk =>
        hnd ⟨hk.1, c, List.mem_cons_self c cs, i, p, g, t, hp, hk.2⟩)
    · intro hd
      obtain ⟨hb, c', hc', i, p, g, t, hp, hi⟩ := hd
      exact hnd ⟨hb, c', List.mem_cons_of_mem c hc', i, p, g, t, hp, hi⟩

theorem runVlans_preserves_unmatched (f : Faults) (b : String) :
    ∀ (m : List (String × List String)) (st : VState), WF st.device → ∀ e ∈ st.device.vlans,
      (∀ kv ∈ m, ¬(lookupF e "bridge" = some b ∧ lookupF e "vlan-ids" = some kv.1)) →
      e ∈ (runVlans f b st m).device.vlans := by
  intro m
  induction m with
  | nil => intro st _ e he _; exact he
  | cons kv rest ih =>
    intro st hwf e he hnd
    rw [runVlans_cons]
    refine ih _ (stepVlan_WF f b st kv hwf) e ?_ ?_
    · exact stepVlan_preserves_unmatched f b st kv hwf.2.1 e he
        (hnd kv (List.mem_cons_self kv rest))
    · intro kv' hkv'
      exact hnd kv' (List.mem_cons_of_mem kv hkv')

/-- Every key of the accumulated VLAN map is either a key it started with or
the pvid of some parsed record. -/
theorem insertAppend_keys (m : List (String × List String)) (k x v : String) :
    (∃ u, (v, u) ∈ insertAppend m k x) → (∃ u, (v, u) ∈ m) ∨ v = k := by
  induction m with
  | nil =>
    rintro ⟨u, hu⟩
    simp only [insertAppend, List.mem_singleton, Prod.mk.injEq] at hu
    exact Or.inr hu.1
  | cons kv rest ih =>
    obtain ⟨k0, vs⟩ := kv
    rintro ⟨u, hu⟩
    simp only [insertAppend] at hu
    by_cases hk : k0 = k
    · rw [if_pos hk] at hu
      rcases List.mem_cons.1 hu with hu | hu
      · simp only [Prod.mk.injEq] at hu
        exact Or.inr (hu.1.trans hk)
      · exact Or.inl ⟨u, List.mem_cons_of_mem _ hu⟩
    · rw [if_neg hk] at hu
      rcases List.mem_cons.1 hu with hu | hu
      · exact Or.inl ⟨u, List.mem_cons.2 (Or.inl hu)⟩
      · rcases ih ⟨u, hu⟩ with h | h
        · obtain ⟨u', hu'⟩ := h
          exact Or.inl ⟨u', List.mem_cons_of_mem _ hu'⟩
        · exact Or.inr h

/-- Case analysis of the VLAN-map effect of one interface iteration. -/
theorem stepPort_vmap_cases (f : Faults) (b : String) (st : PState) (c : String) :
    (stepPort f b st c).vmap = st.vmap ∨
    ∃ i p g t, parse_config c = .ok (i, p, g, t) ∧
      (stepPort f b st c).vmap = insertAppend st.vmap p i := by
  unfold stepPort
  rcases hp : parse_config c with err | ⟨iface, pvid, ing, ft⟩
  · exact Or.inl rfl
  · simp only
    by_cases hg : f.getPort iface
    · exact Or.inr ⟨iface, pvid, ing, ft, rfl, by simp [hg]⟩
    · simp only [hg, Bool.false_eq_true, if_false]
      rcases getPorts st.device b iface with _ | ⟨e, r⟩
      · by_cases hw : f.writePort iface
        · exact Or.inr ⟨iface, pvid, ing, ft, rfl, by simp [hw]⟩
        · exact Or.inr ⟨iface, pvid, ing, ft, rfl, by simp [hw]⟩
      · simp only
        rcases get_id e with _ | pid
        · exact Or.inl rfl
        · by_cases hw : f.writePort iface
          · exact Or.inr ⟨iface, pvid, ing, ft, rfl, by simp [hw]⟩
          · exact Or.inr ⟨iface, pvid, ing, ft, rfl, by simp [hw]⟩

theorem runPorts_vmap_keys (f : Faults) (b : String) :
    ∀ (cfgs : List String) (st : PState) (v : String),
      (∃ u, (v, u) ∈ (runPorts f b st cfgs).vmap) →
      (∃ u, (v, u) ∈ st.vmap) ∨
      ∃ c ∈ cfgs, ∃ i p g t, parse_config c = .ok (i, p, g, t) ∧ p = v := by
  intro cfgs
  induction cfgs with
  | nil => intro st v h; exact Or.inl h
  | cons c cs ih =>
    intro st v h
    rw [runPorts_cons] at h
    rcases ih _ v h with h' | h'
    · rcases stepPort_vmap_cases f b st c with hc | ⟨i, p, g, t, hp, hc⟩
      · rw [hc] at h'
        exact Or.inl h'
      · rw [hc] at h'
        rcases insertAppend_keys st.vmap p i v h' with h'' | h''
        · exact Or.inl h''
        · exact Or.inr ⟨c, List.mem_cons_self c cs, i, p, g, t, hp, h''.symm⟩
    · obtain ⟨c', hc', rest⟩ := h'
      exact Or.inr ⟨c', List.mem_cons_of_mem c hc', rest⟩

/-- **C7.** The engine never deletes: on a well-formed device, every
bridge-port entry whose `(bridge, interface)` key is not targeted by any
desired record, and every VLAN entry whose `(bridge, vlan_id)` key is not
targeted, is still present, unchanged, after a full run — under any fault
pattern. -/
theorem c7_no_deletion (f : Faults) (b : String) (cfgs : List String) (dev : Device)
    (hwf : WF dev) :
    (∀ e ∈ dev.ports, ¬PortDesired b cfgs e →
      e ∈ (apply_switch_config f b cfgs dev).device.ports) ∧
    (∀ e ∈ dev.vlans, ¬VlanDesired b cfgs e →
      e ∈ (apply_switch_config f b cfgs dev).device.vlans) := by
  have hports : (apply_switch_config f b cfgs dev).device.ports =
      (runPorts f b ⟨dev, [], []⟩ cfgs).device.ports := by
    show (runVlans f b _ _).device.ports = _
    rw [runVlans_ports]
  have hvlans : (apply_switch_config f b cfgs dev).device.vlans =
      (runVlans f b ⟨(runPorts f b ⟨dev, [], []⟩ cfgs).device,
        (runPorts f b ⟨dev, [], []⟩ cfgs).events⟩
        (runPorts f b ⟨dev, [], []⟩ cfgs).vmap).device.vlans := rfl
  constructor
  · intro e he hnd
    rw [hports]
    exact runPorts_preserves_unmatched f b cfgs ⟨dev, [], []⟩ hwf e he hnd
  · intro e he hnd
    rw [hvlans]
    have hpvlans : (runPorts f b ⟨dev, [], []⟩ cfgs).device.vlans = dev.vlans :=
      runPorts_vlans f b cfgs ⟨dev, [], []⟩
    have hpwf : WF (runPorts f b ⟨dev, [], []⟩ cfgs).device :=
      runPorts_WF f b cfgs ⟨dev, [], []⟩ hwf
    refine runVlans_preserves_unmatched f b _ _ hpwf e (hpvlans ▸ he) ?_
    intro kv hkv hmatch
    rcases runPorts_vmap_keys f b cfgs ⟨dev, [], []⟩ kv.1 ⟨kv.2, hkv⟩ with h | h
    · obtain ⟨u, hu⟩ := h
      simp at hu
    · obtain ⟨c, hc, i, p, g, t, hp, hpv⟩ := h
      exact hnd ⟨hmatch.1, c, hc, i, p, g, t, hp, hpv ▸ hmatch.2⟩

/-- An identifier string containing a character other than `'*'` was never
generated by the device counter. -/
theorem ne_mkId_of_char (s : String) (c : Char) (hc : c ∈ s.data) (hne : c ≠ '*')
    (n : Nat) : s ≠ mkId n := by
  intro h
  rw [h] at hc
  simp only [mkId] at hc
  exact hne (List.eq_of_mem_replicate hc)

/-- **C7 witness.** A port entry on `eth9` and a VLAN entry for VLAN `99`,
neither targeted by the single desired record `eth1,10,...`, both survive a
full run untouched. -/
theorem c7_no_deletion_witness :
    [(".id", "p1"), ("bridge", "br"), ("interface", "eth9")] ∈
      (apply_switch_config noFaults "br" ["eth1,10,yes,admit-all"]
        ⟨[[(".id", "p1"), ("bridge", "br"), ("interface", "eth9")]],
         [[(".id", "q1"), ("bridge", "br"), ("vlan-ids", "99")]], 0⟩).device.ports ∧
    [(".id", "q1"), ("bridge", "br"), ("vlan-ids", "99")] ∈
      (apply_switch_config noFaults "br" ["eth1,10,yes,admit-all"]
        ⟨[[(".id", "p1"), ("bridge", "br"), ("interface", "eth9")]],
         [[(".id", "q1"), ("bridge", "br"), ("vlan-ids", "99")]], 0⟩).device.vlans := by
  have hwf : WF ⟨[[(".id", "p1"), ("bridge", "br"), ("interface", "eth9")]],
      [[(".id", "q1"), ("bridge", "br"), ("vlan-ids", "99")]], 0⟩ := by
    refine ⟨?_, ?_, ?_⟩
    · rintro e1 h1 e2 h2 _ _
      simp only [List.mem_singleton] at h1 h2
      rw [h1, h2]
    · rintro e1 h1 e2 h2 _ _
      simp only [List.mem_singleton] at h1 h2
      rw [h1, h2]
    · rintro e (he | he) n hn hcontra <;> simp only [List.mem_singleton] at he <;> subst he
      · exact ne_mkId_of_char "p1" 'p' (by decide) (by decide) n (Option.some.inj hcontra)
      · exact ne_mkId_of_char "q1" 'q' (by decide) (by decide) n (Option.some.inj hcontra)
  have h := c7_no_deletion noFaults "br" ["eth1,10,yes,admit-all"]
    ⟨[[(".id", "p1"), ("bridge", "br"), ("interface", "eth9")]],
     [[(".id", "q1"), ("bridge", "br"), ("vlan-ids", "99")]], 0⟩ hwf
  constructor
  · refine h.1 _ (List.mem_singleton.2 rfl) ?_
    rintro ⟨hb, c, hc, i, p, g, t, hp, hi⟩
    simp only [List.mem_singleton] at hc
    subst hc
    have h2 : ("eth1", "10", "yes", "admit-all") = (i, p, g, t) :=
      Except.ok.inj ((rfl : parse_config "eth1,10,yes,admit-all" =
        Except.ok ("eth1", "10", "yes", "admit-all")).symm.trans hp)
    have hi1 : "eth1" = i := congrArg Prod.fst h2
    have hi2 : ("eth9" : String) = i := Option.some.inj hi
    rw [← hi1] at hi2
    exact absurd hi2 (by decide)
  · refine h.2 _ (List.mem_singleton.2 rfl) ?_
    rintro ⟨hb, c, hc, i, p, g, t, hp, hv⟩
    simp only [List.mem_singleton] at hc
    subst hc
    have h2 : ("eth1", "10", "yes", "admit-all") = (i, p, g, t) :=
      Except.ok.inj ((rfl : parse_config "eth1,10,yes,admit-all" =
        Except.ok ("eth1", "10", "yes", "admit-all")).symm.trans hp)
    have hp1 : "10" = p := congrArg (fun q => q.2.1) h2
    have hp2 : ("99" : String) = p := Option.some.inj hv
    rw [← hp1] at hp2
    exact absurd hp2 (by decide)

/-! ### String split/join round trip (for idempotence of the tagged diff) -/

theorem splitOnP_chunks {α : Type} (p : α → Bool) :
    ∀ (l : List α), ∀ c ∈ l.splitOnP p, ∀ a ∈ c, ¬p a = true := by
  intro l
  induction l with
  | nil =>
    intro c hc a ha
    rw [List.splitOnP_nil] at hc
    simp only [List.mem_singleton] at hc
    subst hc
    simp at ha
  | cons x xs ih =>
    intro c hc a ha
    rw [List.splitOnP_cons] at hc
    by_cases hx : p x
    · rw [if_pos hx] at hc
      rcases List.mem_cons.1 hc with hc | hc
      · subst hc
        simp at ha
      · exact ih c hc a ha
    · rw [if_neg hx] at hc
      rcases hsplit : xs.splitOnP p with _ | ⟨h0, t0⟩
      · exact absurd hsplit (List.splitOnP_ne_nil p xs)
      · rw [hsplit] at hc
        simp only [List.modifyHead_cons] at hc
        rcases List.mem_cons.1 hc with hc | hc
        · subst hc
          rcases List.mem_cons.1 ha with ha | ha
          · subst ha
            exact hx
          · exact ih h0 (hsplit ▸ List.mem_cons_self h0 t0) a ha
        · exact ih c (hsplit ▸ List.mem_cons_of_mem h0 hc) a ha

/-- No field produced by splitting on commas contains a comma. -/
theorem splitComma_no_comma (s : String) : ∀ x ∈ splitComma s, ',' ∉ x.data := by
  intro x hx hmem
  unfold splitComma at hx
  obtain ⟨c, hc, rfl⟩ := List.mem_map.1 hx
  have h := splitOnP_chunks (fun a => a == ',') s.toList c
    (by simpa [List.splitOn] using hc) ',' hmem
  exact h rfl

theorem array_to_string_data :
    ∀ xs : List String, (array_to_string xs).data = List.intercalate [','] (xs.map String.data)
  | [] => rfl
  | [s] => by
    simp [array_to_string, List.intercalate, List.intersperse_singleton]
  | s :: s2 :: t => by
    have ih := array_to_string_data (s2 :: t)
    show (s ++ "," ++ array_to_string (s2 :: t)).data = _
    simp only [List.map_cons, List.intercalate, List.intersperse_cons_cons,
      List.flatten_cons, String.data_append]
    simp only [List.intercalate] at ih
    rw [ih]
    simp

/-- Splitting the comma-join of a nonempty list of comma-free fields
recovers the fields. -/
theorem splitComma_array_to_string (xs : List String) (hne : xs ≠ [])
    (hc : ∀ x ∈ xs, ',' ∉ x.data) : splitComma (array_to_string xs) = xs := by
  unfold splitComma
  have hdata : (array_to_string xs).toList = List.intercalate [','] (xs.map String.data) :=
    array_to_string_data xs
  rw [hdata, List.splitOn_intercalate (xs.map String.data) ','
    (fun l hl => by
      obtain ⟨x, hx, rfl⟩ := List.mem_map.1 hl
      exact hc x hx)
    (by simpa using hne)]
  rw [List.map_map]
  exact List.map_id xs

/-- Re-splitting and re-filtering the comma-join of an already filtered,
comma-free tagged list reproduces it — except in the whitespace corner case,
which the cleanliness hypothesis excludes. -/
theorem tagged_diff_roundtrip (u : List String) (xs : List String)
    (hc : ∀ x ∈ xs, ',' ∉ x.data)
    (hxs : ∀ x ∈ xs, (!(u.contains x)) = true)
    (hclean : array_to_string xs ≠ "" →
      (array_to_string xs).toList.any (fun ch => !(pyIsSpace ch)) = true) :
    array_to_string ((tagged_to_array (array_to_string xs)).filter
      (fun t => !(u.contains t))) = array_to_string xs := by
  rcases eq_or_ne xs [] with rfl | hne
  · rfl
  · by_cases hT : array_to_string xs = ""
    · rw [hT]
      rfl
    · have hsplit : tagged_to_array (array_to_string xs) = xs := by
        unfold tagged_to_array
        rw [if_pos (hclean hT)]
        exact splitComma_array_to_string xs hne hc
      rw [hsplit, List.filter_eq_self.2 hxs]

/-! ### Per-key behaviour of the interface pass -/

theorem map_eq_self_of_eq {α : Type} (l : List α) (f : α → α) (h : ∀ a ∈ l, f a = a) :
    l.map f = l := by
  induction l with
  | nil => rfl
  | cons a t ih =>
    rw [List.map_cons, h a (List.mem_cons_self a t), ih (fun x hx => h x (List.mem_cons_of_mem a hx))]

theorem getPorts_congr_ports (d1 d2 : Device) (h : d1.ports = d2.ports) (b i : String) :
    getPorts d1 b i = getPorts d2 b i := by
  unfold getPorts
  rw [h]

theorem getVlans_congr_vlans (d1 d2 : Device) (h : d1.vlans = d2.vlans) (b v : String) :
    getVlans d1 b v = getVlans d2 b v := by
  unfold getVlans
  rw [h]

theorem lookupF_setPorts_upd_key (pid p ft ing : String) (e : Entry) (k : String)
    (h1 : k ≠ "pvid") (h2 : k ≠ "frame-types") (h3 : k ≠ "ingress-filtering") :
    lookupF (if get_id e = some pid then updPortFields e p ft ing else e) k = lookupF e k := by
  by_cases hc : get_id e = some pid <;>
    simp [hc, lookupF_updPortFields_key _ _ _ _ _ h1 h2 h3]

theorem lookupF_setVlans_upd_key (vid u t : String) (e : Entry) (k : String)
    (h1 : k ≠ "untagged") (h2 : k ≠ "tagged") :
    lookupF (if get_id e = some vid then updVlanFields e u t else e) k = lookupF e k := by
  by_cases hc : get_id e = some vid <;>
    simp [hc, lookupF_updVlanFields_key _ _ _ _ h1 h2]

theorem getPorts_setPorts (dev : Device) (pid p ft ing b i : String) :
    getPorts (setPorts dev pid p ft ing) b i =
      (getPorts dev b i).map
        (fun e => if get_id e = some pid then updPortFields e p ft ing else e) := by
  unfold getPorts setPorts
  simp only
  rw [List.filter_map]
  congr 1
  apply List.filter_congr
  intro e he
  simp only [Function.comp]
  rw [lookupF_setPorts_upd_key pid p ft ing e "interface" (by decide) (by decide) (by decide),
    lookupF_setPorts_upd_key pid p ft ing e "bridge" (by decide) (by decide) (by decide)]

theorem getVlans_setVlans (dev : Device) (vid u t b v : String) :
    getVlans (setVlans dev vid u t) b v =
      (getVlans dev b v).map
        (fun e => if get_id e = some vid then updVlanFields e u t else e) := by
  unfold getVlans setVlans
  simp only
  rw [List.filter_map]
  congr 1
  apply List.filter_congr
  intro e he
  simp only [Function.comp]
  rw [lookupF_setVlans_upd_key vid u t e "bridge" (by decide) (by decide),
    lookupF_setVlans_upd_key vid u t e "vlan-ids" (by decide) (by decide)]

theorem getPorts_addPort_same (dev : Device) (b i p ft ing : String) :
    getPorts (addPort dev b i p ft ing) b i =
      getPorts dev b i ++ [newPortEntry dev.nextId b i p ft ing] := by
  unfold getPorts addPort
  simp only
  rw [List.filter_append]
  congr 1
  simp [newPortEntry, lookupF, List.filter]

theorem getPorts_addPort_other (dev : Device) (b i p ft ing i' : String) (hne : i' ≠ i) :
    getPorts (addPort dev b i p ft ing) b i' = getPorts dev b i' := by
  unfold getPorts addPort
  simp only
  rw [List.filter_append]
  have hnil : List.filter
      (fun e => lookupF e "interface" == some i' && lookupF e "bridge" == some b)
      [newPortEntry dev.nextId b i p ft ing] = [] := by
    have hb : (i == i') = false := beq_eq_false_iff_ne.2 (Ne.symm hne)
    simp [newPortEntry, lookupF, List.filter, hb]
  rw [hnil, List.append_nil]

theorem getVlans_addVlan_same (dev : Device) (b v u : String) :
    getVlans (addVlan dev b v u) b v =
      getVlans dev b v ++ [newVlanEntry dev.nextId b v u] := by
  unfold getVlans addVlan
  simp only
  rw [List.filter_append]
  congr 1
  simp [newVlanEntry, lookupF, List.filter]

theorem getVlans_addVlan_other (dev : Device) (b v u v' : String) (hne : v' ≠ v) :
    getVlans (addVlan dev b v u) b v' = getVlans dev b v' := by
  unfold getVlans addVlan
  simp only
  rw [List.filter_append]
  have hnil : List.filter
      (fun e => lookupF e "bridge" == some b && lookupF e "vlan-ids" == some v')
      [newVlanEntry dev.nextId b v u] = [] := by
    have hb : (v == v') = false := beq_eq_false_iff_ne.2 (Ne.symm hne)
    simp [newVlanEntry, lookupF, List.filter, hb]
  rw [hnil, List.append_nil]

/-- Classification of a `get` result: found with a resolvable identifier, or
absent. -/
def GoodAbs (l : List Entry) : Prop :=
  l = [] ∨ ∃ e r pid, l = e :: r ∧ get_id e = some pid

/-- The `get` result's first entry has no resolvable identifier. -/
def BadHead (l : List Entry) : Prop :=
  ∃ e r, l = e :: r ∧ get_id e = none

theorem goodAbs_or_badHead (l : List Entry) : GoodAbs l ∨ BadHead l := by
  rcases l with _ | ⟨e, r⟩
  · exact Or.inl (Or.inl rfl)
  · rcases h : get_id e with _ | pid
    · exact Or.inr ⟨e, r, rfl, h⟩
    · exact Or.inl (Or.inr ⟨e, r, pid, rfl, h⟩)

theorem goodAbs_iff_not_badHead (l : List Entry) : GoodAbs l ↔ ¬BadHead l := by
  constructor
  · rintro (rfl | ⟨e, r, pid, rfl, hid⟩) ⟨e', r', heq, hid'⟩
    · exact List.noConfusion heq
    · obtain ⟨he, -⟩ := List.cons.inj heq
      rw [← he, hid] at hid'
      exact Option.noConfusion hid'
  · intro h
    rcases goodAbs_or_badHead l with hg | hb
    · exact hg
    · exact absurd hb h

/-- The last parsed record for a given interface, if any: its
`(pvid, ingress_filter, frame_types)`. -/
def lastOcc : List String → String → Option (String × String × String)
  | [], _ => none
  | c :: cs, i =>
    match lastOcc cs i with
    | some v => some v
    | none =>
      match parse_config c with
      | .ok (j, p, g, t) => if j = i then some (p, g, t) else none
      | .error _ => none

theorem lastOcc_ne_none_of_mem (i : String) :
    ∀ (cfgs : List String) (c : String), c ∈ cfgs →
      ∀ p g t, parse_config c = .ok (i, p, g, t) → lastOcc cfgs i ≠ none := by
  intro cfgs
  induction cfgs with
  | nil => intro c hc; simp at hc
  | cons c0 cs ih =>
    intro c hc p g t hp
    show (match lastOcc cs i with
      | some v => some v
      | none =>
        match parse_config c0 with
        | .ok (j, p, g, t) => if j = i then some (p, g, t) else none
        | .error _ => none) ≠ none
    rcases hl : lastOcc cs i with _ | v
    · simp only
      rcases List.mem_cons.1 hc with rfl | hc
      · rw [hp]
        simp
      · exact absurd hl (ih c hc p g t hp)
    · simp

/-- One interface iteration leaves the `get` view of every other interface
untouched (on a well-formed device). -/
theorem stepPort_frame (f : Faults) (b : String) (st : PState) (c : String) (i : String)
    (hwf : WF st.device)
    (hne : ∀ j p g t, parse_config c = .ok (j, p, g, t) → j ≠ i) :
    getPorts (stepPort f b st c).device b i = getPorts st.device b i := by
  unfold stepPort
  rcases hp : parse_config c with err | ⟨j, p, g, t⟩
  · rfl
  · have hji : j ≠ i := hne j p g t hp
    simp only
    by_cases hg : f.getPort j
    · simp [hg]
    · simp only [hg, Bool.false_eq_true, if_false]
      rcases hget : getPorts st.device b j with _ | ⟨e0, r0⟩
      · by_cases hw : f.writePort j
        · simp [hw]
        · simp only [hw, Bool.false_eq_true, if_false]
          exact getPorts_addPort_other st.device b j p t g i (Ne.symm hji)
      · simp only
        have he0 : e0 ∈ getPorts st.device b j := hget ▸ List.mem_cons_self e0 r0
        have hkey := getPorts_key st.device b j e0 he0
        have he0p := mem_of_mem_getPorts st.device b j e0 he0
        rcases hid : get_id e0 with _ | pid
        · rfl
        · by_cases hw : f.writePort j
          · simp [hw]
          · simp only [hw, Bool.false_eq_true, if_false]
            rw [getPorts_setPorts]
            apply map_eq_self_of_eq
            intro e he
            have hep := mem_of_mem_getPorts st.device b i e he
            have hek := getPorts_key st.device b i e he
            by_cases hc2 : get_id e = some pid
            · exfalso
              have heq := uniqueIds_resolve _ hwf.1 e e0 hep he0p pid hc2 hid
              rw [heq] at hek
              exact hji (Option.some.inj (hkey.1.symm.trans hek.1))
            · rw [if_neg hc2]

/-- Fault-free interface iteration on its own key, starting from a
found-with-identifier or absent entry: afterwards the key's first entry has a
resolvable identifier and carries exactly the desired field values. -/
theorem stepPort_converge (b : String) (st : PState) (c : String) (i p g t : String)
    (_hwf : WF st.device) (hp : parse_config c = .ok (i, p, g, t))
    (hga : GoodAbs (getPorts st.device b i)) :
    ∃ e' r' pid', getPorts (stepPort noFaults b st c).device b i = e' :: r' ∧
      get_id e' = some pid' ∧ lookupF e' "pvid" = some p ∧
      lookupF e' "frame-types" = some t ∧ lookupF e' "ingress-filtering" = some g := by
  unfold stepPort
  rw [hp]
  simp only [noFaults, Bool.false_eq_true, if_false]
  rcases hga with habs | ⟨e0, r0, pid, hcons, hid⟩
  · rw [habs]
    simp only
    refine ⟨newPortEntry st.device.nextId b i p t g, [], mkId st.device.nextId, ?_,
      get_id_newPortEntry _ _ _ _ _ _, ?_, ?_, ?_⟩
    · rw [getPorts_addPort_same, habs, List.nil_append]
    all_goals simp [newPortEntry, lookupF]
  · rw [hcons]
    simp only [hid]
    refine ⟨updPortFields e0 p t g, r0.map
        (fun e => if get_id e = some pid then updPortFields e p t g else e), pid, ?_, ?_, ?_⟩
    · rw [getPorts_setPorts, hcons, List.map_cons, if_pos hid]
    · rw [get_id_updPortFields, hid]
    · exact lookupF_updPortFields_vals e0 p t g

/-- A record whose key resolves to an entry without identifier leaves the
device untouched. -/
theorem stepPort_badHead_eq (f : Faults) (b : String) (st : PState) (c i p g t : String)
    (hp : parse_config c = .ok (i, p, g, t)) (hg : f.getPort i = false)
    (e : Entry) (r : List Entry) (hget : getPorts st.device b i = e :: r)
    (hid : get_id e = none) : (stepPort f b st c).device = st.device := by
  unfold stepPort
  rw [hp]
  simp only [hg, Bool.false_eq_true, if_false, hget, hid]

theorem runPorts_badHead (b i : String) :
    ∀ (cfgs : List String) (st : PState) (e : Entry) (r : List Entry), WF st.device →
      getPorts st.device b i = e :: r → get_id e = none →
      getPorts (runPorts noFaults b st cfgs).device b i = e :: r := by
  intro cfgs
  induction cfgs with
  | nil => intro st e r _ hget _; exact hget
  | cons c cs ih =>
    intro st e r hwf hget hid
    rw [runPorts_cons]
    have hwf' := stepPort_WF noFaults b st c hwf
    by_cases hci : ∃ p g t, parse_config c = .ok (i, p, g, t)
    · obtain ⟨p, g, t, hp⟩ := hci
      have hdev : (stepPort noFaults b st c).device = st.device :=
        stepPort_badHead_eq noFaults b st c i p g t hp rfl e r hget hid
      refine ih _ e r hwf' ?_ hid
      rw [hdev]
      exact hget
    · push_neg at hci
      have hframe : getPorts (stepPort noFaults b st c).device b i = getPorts st.device b i := by
        apply stepPort_frame noFaults b st c i hwf
        intro j p g t hp hji
        exact hci p g t (hji ▸ hp)
      refine ih _ e r hwf' ?_ hid
      rw [hframe]
      exact hget

theorem runPorts_frame_none (b i : String) :
    ∀ (cfgs : List String) (st : PState), WF st.device → lastOcc cfgs i = none →
      getPorts (runPorts noFaults b st cfgs).device b i = getPorts st.device b i := by
  intro cfgs
  induction cfgs with
  | nil => intro st _ _; rfl
  | cons c cs ih =>
    intro st hwf hnone
    have hlc : lastOcc (c :: cs) i = (match lastOcc cs i with
      | some v => some v
      | none =>
        match parse_config c with
        | .ok (j, p, g, t) => if j = i then some (p, g, t) else none
        | .error _ => none) := rfl
    rw [hlc] at hnone
    have h1 : lastOcc cs i = none := by
      rcases hl : lastOcc cs i with _ | v
      · rfl
      · rw [hl] at hnone
        exact absurd hnone (by simp)
    rw [h1] at hnone
    simp only at hnone
    have h2 : ∀ p g t, parse_config c ≠ .ok (i, p, g, t) := by
      intro p g t hp
      rw [hp] at hnone
      simp at hnone
    rw [runPorts_cons]
    have hframe : getPorts (stepPort noFaults b st c).device b i = getPorts st.device b i := by
      apply stepPort_frame noFaults b st c i hwf
      intro j p g t hp hji
      exact h2 p g t (hji ▸ hp)
    rw [ih _ (stepPort_WF noFaults b st c hwf) h1, hframe]

/-- Final per-key view of a fault-free interface pass, for a key initially
absent or resolvable: if the key occurs among the records, its entry ends up
carrying the values of the last occurrence; otherwise the key's view is
unchanged. -/
theorem runPorts_key_final (b i : String) :
    ∀ (cfgs : List String) (st : PState), WF st.device → GoodAbs (getPorts st.device b i) →
      (lastOcc cfgs i = none →
        getPorts (runPorts noFaults b st cfgs).device b i = getPorts st.device b i) ∧
      (∀ p g t, lastOcc cfgs i = some (p, g, t) →
        ∃ e' r' pid', getPorts (runPorts noFaults b st cfgs).device b i = e' :: r' ∧
          get_id e' = some pid' ∧ lookupF e' "pvid" = some p ∧
          lookupF e' "frame-types" = some t ∧ lookupF e' "ingress-filtering" = some g) := by
  intro cfgs
  induction cfgs with
  | nil =>
    intro st _ _
    refine ⟨fun _ => rfl, fun p g t h => ?_⟩
    exact absurd h (by simp [lastOcc])
  | cons c cs ih =>
    intro st hwf hga
    rw [runPorts_cons]
    have hwf' := stepPort_WF noFaults b st c hwf
    have hlc : lastOcc (c :: cs) i = (match lastOcc cs i with
      | some v => some v
      | none =>
        match parse_config c with
        | .ok (j, p, g, t) => if j = i then some (p, g, t) else none
        | .error _ => none) := rfl
    by_cases hci : ∃ p g t, parse_config c = .ok (i, p, g, t)
    · obtain ⟨p, g, t, hp⟩ := hci
      obtain ⟨e', r', pid', hget', hid', hv1, hv2, hv3⟩ :=
        stepPort_converge b st c i p g t hwf hp hga
      have hga' : GoodAbs (getPorts (stepPort noFaults b st c).device b i) :=
        Or.inr ⟨e', r', pid', hget', hid'⟩
      have ihs := ih (stepPort noFaults b st c) hwf' hga'
      constructor
      · intro hnone
        rw [hlc] at hnone
        exfalso
        rcases hl : lastOcc cs i with _ | v
        · rw [hl] at hnone
          simp only at hnone
          rw [hp] at hnone
          simp at hnone
        · rw [hl] at hnone
          simp at hnone
      · intro p0 g0 t0 hsome
        rw [hlc] at hsome
        rcases hl : lastOcc cs i with _ | v
        · rw [hl] at hsome
          simp only at hsome
          rw [hp] at hsome
          simp only [if_pos rfl] at hsome
          have h1 : p = p0 := congrArg (fun q => q.1) (Option.some.inj hsome)
          have h2 : g = g0 := congrArg (fun q => q.2.1) (Option.some.inj hsome)
          have h3 : t = t0 := congrArg (fun q => q.2.2) (Option.some.inj hsome)
          subst h1
          subst h2
          subst h3
          exact ⟨e', r', pid', by rw [ihs.1 hl, hget'], hid', hv1, hv2, hv3⟩
        · rw [hl] at hsome
          simp only at hsome
          exact ihs.2 p0 g0 t0 (hl.trans hsome)
    · push_neg at hci
      have hframe : getPorts (stepPort noFaults b st c).device b i = getPorts st.device b i := by
        apply stepPort_frame noFaults b st c i hwf
        intro j p g t hp hji
        exact hci p g t (hji ▸ hp)
      have hga' : GoodAbs (getPorts (stepPort noFaults b st c).device b i) := by
        rw [hframe]
        exact hga
      have ihs := ih (stepPort noFaults b st c) hwf' hga'
      have hhead : (match parse_config c with
          | Except.ok (j, p, g, t) => if j = i then some (p, g, t) else none
          | Except.error _ => none) = (none : Option (String × String × String)) := by
        rcases hp : parse_config c with err | ⟨j, p, g, t⟩
        · rfl
        · simp only
          rw [if_neg ?hji]
          case hji =>
            intro hji
            exact hci p g t (hji ▸ hp)
      have hlast : lastOcc (c :: cs) i = lastOcc cs i := by
        rw [hlc]
        rcases hl : lastOcc cs i with _ | v
        · simp only
          exact hhead
        · rfl
      constructor
      · intro hnone
        rw [hlast] at hnone
        rw [ihs.1 hnone, hframe]
      · intro p0 g0 t0 hsome
        rw [hlast] at hsome
        exact ihs.2 p0 g0 t0 hsome

/-! ### The VLAN map agrees between consecutive runs -/

theorem headIdMissing_iff (l : List Entry) : headIdMissing l = true ↔ BadHead l := by
  rcases l with _ | ⟨e, r⟩
  · simp only [headIdMissing, Bool.false_eq_true, false_iff]
    rintro ⟨e', r', heq, -⟩
    exact List.noConfusion heq
  · simp only [headIdMissing, Option.isNone_iff_eq_none]
    constructor
    · intro h
      exact ⟨e, r, rfl, h⟩
    · rintro ⟨e', r', heq, hid⟩
      obtain ⟨he, -⟩ := List.cons.inj heq
      rw [he]
      exact hid

theorem not_badHead_cons_some (e : Entry) (r : List Entry) (pid : String)
    (h : get_id e = some pid) : ¬BadHead (e :: r) := by
  rintro ⟨e', r', heq, hid⟩
  obtain ⟨he, -⟩ := List.cons.inj heq
  rw [← he, h] at hid
  exact Option.noConfusion hid

theorem stepPort_error_device (f : Faults) (b : String) (st : PState) (c err : String)
    (hp : parse_config c = .error err) : (stepPort f b st c).device = st.device := by
  unfold stepPort
  rw [hp]

theorem stepPort_vmap_noFaults (b : String) (st : PState) (c : String) :
    (stepPort noFaults b st c).vmap =
      match parse_config c with
      | .error _ => st.vmap
      | .ok (i, p, _, _) =>
        if headIdMissing (getPorts st.device b i) = true then st.vmap
        else insertAppend st.vmap p i := by
  unfold stepPort
  rcases parse_config c with err | ⟨i, p, g, t⟩
  · rfl
  · simp only [noFaults, Bool.false_eq_true, if_false]
    rcases getPorts st.device b i with _ | ⟨e, r⟩
    · simp [headIdMissing]
    · simp only [headIdMissing]
      split
      · rename_i hnone
        simp [hnone]
      · rename_i pid hsome
        simp [hsome]

theorem runPorts_vmap_rel (b : String) :
    ∀ (cfgs : List String) (st1 st2 : PState),
      WF st1.device → WF st2.device → st1.vmap = st2.vmap →
      (∀ i, BadHead (getPorts st1.device b i) ↔ BadHead (getPorts st2.device b i)) →
      (runPorts noFaults b st1 cfgs).vmap = (runPorts noFaults b st2 cfgs).vmap := by
  intro cfgs
  induction cfgs with
  | nil => intro st1 st2 _ _ hv _; exact hv
  | cons c cs ih =>
    intro st1 st2 hwf1 hwf2 hv hrel
    rw [runPorts_cons, runPorts_cons]
    refine ih _ _ (stepPort_WF _ _ _ _ hwf1) (stepPort_WF _ _ _ _ hwf2) ?_ ?_
    · rw [stepPort_vmap_noFaults, stepPort_vmap_noFaults]
      rcases hp : parse_config c with err | ⟨i, p, g, t⟩
      · exact hv
      · simp only
        by_cases h1 : headIdMissing (getPorts st1.device b i) = true
        · have hb2 := (hrel i).1 ((headIdMissing_iff _).1 h1)
          rw [h1, (headIdMissing_iff _).2 hb2]
          simpa using hv
        · have h2 : ¬headIdMissing (getPorts st2.device b i) = true := by
            intro h2t
            exact h1 ((headIdMissing_iff _).2 ((hrel i).2 ((headIdMissing_iff _).1 h2t)))
          rw [Bool.not_eq_true] at h1 h2
          rw [h1, h2]
          simpa using congrArg (fun m => insertAppend m p i) hv
    · intro i'
      rcases hp : parse_config c with err | ⟨j, p, g, t⟩
      · rw [stepPort_error_device _ _ _ _ _ hp, stepPort_error_device _ _ _ _ _ hp]
        exact hrel i'
      · by_cases hij : j = i'
        · subst hij
          by_cases hbad : BadHead (getPorts st1.device b j)
          · obtain ⟨e, r, heq, hid⟩ := hbad
            obtain ⟨e2, r2, heq2, hid2⟩ := (hrel j).1 ⟨e, r, heq, hid⟩
            rw [stepPort_badHead_eq noFaults b st1 c j p g t hp rfl e r heq hid,
              stepPort_badHead_eq noFaults b st2 c j p g t hp rfl e2 r2 heq2 hid2]
            exact hrel j
          · have hga1 : GoodAbs (getPorts st1.device b j) :=
              (goodAbs_iff_not_badHead _).2 hbad
            have hbad2 : ¬BadHead (getPorts st2.device b j) := fun h => hbad ((hrel j).2 h)
            have hga2 : GoodAbs (getPorts st2.device b j) :=
              (goodAbs_iff_not_badHead _).2 hbad2
            obtain ⟨e1', r1', pid1', hg1, hi1, -, -, -⟩ :=
              stepPort_converge b st1 c j p g t hwf1 hp hga1
            obtain ⟨e2', r2', pid2', hg2, hi2, -, -, -⟩ :=
              stepPort_converge b st2 c j p g t hwf2 hp hga2
            rw [hg1, hg2]
            constructor
            · intro h
              exact absurd h (not_badHead_cons_some _ _ _ hi1)
            · intro h
              exact absurd h (not_badHead_cons_some _ _ _ hi2)
        · have hne1 : ∀ j0 p0 g0 t0, parse_config c = .ok (j0, p0, g0, t0) → j0 ≠ i' := by
            intro j0 p0 g0 t0 hp0 heq
            exact hij ((congrArg Prod.fst (Except.ok.inj (hp0.symm.trans hp))).symm.trans heq)
          rw [stepPort_frame noFaults b st1 c i' hwf1 hne1,
            stepPort_frame noFaults b st2 c i' hwf2 hne1]
          exact hrel i'

/-! ### Keys of the VLAN map are distinct -/

theorem insertAppend_fst (m : List (String × List String)) (k x : String) :
    (insertAppend m k x).map Prod.fst =
      if k ∈ m.map Prod.fst then m.map Prod.fst else m.map Prod.fst ++ [k] := by
  induction m with
  | nil => simp [insertAppend]
  | cons kv rest ih =>
    obtain ⟨k0, vs⟩ := kv
    by_cases hk : k0 = k
    · subst hk
      simp [insertAppend]
    · simp only [insertAppend, hk, if_false, List.map_cons]
      rw [ih]
      by_cases hmem : k ∈ rest.map Prod.fst
      · simp [hmem, Ne.symm hk]
      · simp [hmem, Ne.symm hk]

theorem insertAppend_keys_nodup (m : List (String × List String)) (k x : String)
    (h : (m.map Prod.fst).Nodup) : ((insertAppend m k x).map Prod.fst).Nodup := by
  rw [insertAppend_fst]
  by_cases hmem : k ∈ m.map Prod.fst
  · simpa [hmem] using h
  · simp only [hmem, if_false]
    rw [List.nodup_append]
    exact ⟨h, List.nodup_singleton k, by simpa using hmem⟩

theorem runPorts_keys_nodup (f : Faults) (b : String) :
    ∀ (cfgs : List String) (st : PState), ((st.vmap).map Prod.fst).Nodup →
      (((runPorts f b st cfgs).vmap).map Prod.fst).Nodup := by
  intro cfgs
  induction cfgs with
  | nil => intro st h; exact h
  | cons c cs ih =>
    intro st h
    rw [runPorts_cons]
    refine ih _ ?_
    rcases stepPort_vmap_cases f b st c with hc | ⟨i, p, g, t, hp, hc⟩
    · rw [hc]
      exact h
    · rw [hc]
      exact insertAppend_keys_nodup st.vmap p i h

/-! ### Per-key behaviour of the VLAN pass -/

/-- The tagged string written back for an existing VLAN entry: its current
tagged list with the desired untagged interfaces removed, re-joined. -/
def newTaggedStr (e : Entry) (untagged_list : List String) : String :=
  array_to_string ((tagged_to_array ((lookupF e "tagged").getD "")).filter
    (fun t => !(untagged_list.contains t)))

theorem tagged_to_array_no_comma (s : String) : ∀ x ∈ tagged_to_array s, ',' ∉ x.data := by
  unfold tagged_to_array
  split
  · exact splitComma_no_comma s
  · intro x hx
    simp at hx

theorem stepVlan_frame (f : Faults) (b : String) (st : VState) (kv : String × List String)
    (v : String) (hwf : WF st.device) (hne : kv.1 ≠ v) :
    getVlans (stepVlan f b st kv).device b v = getVlans st.device b v := by
  obtain ⟨vlan_id, untagged⟩ := kv
  have hne' : vlan_id ≠ v := hne
  unfold stepVlan
  simp only
  by_cases hg : f.getVlan vlan_id
  · simp [hg]
  · simp only [hg, Bool.false_eq_true, if_false]
    rcases hget : getVlans st.device b vlan_id with _ | ⟨e0, r0⟩
    · by_cases hw : f.writeVlan vlan_id
      · simp [hw]
      · simp only [hw, Bool.false_eq_true, if_false]
        exact getVlans_addVlan_other st.device b vlan_id (array_to_string untagged) v
          (Ne.symm hne')
    · simp only
      have he0 : e0 ∈ getVlans st.device b vlan_id := hget ▸ List.mem_cons_self e0 r0
      have hkey := getVlans_key st.device b vlan_id e0 he0
      have he0v := mem_of_mem_getVlans st.device b vlan_id e0 he0
      rcases hid : get_id e0 with _ | vid
      · rfl
      · by_cases hw : f.writeVlan vlan_id
        · simp [hw]
        · simp only [hw, Bool.false_eq_true, if_false]
          rw [getVlans_setVlans]
          apply map_eq_self_of_eq
          intro e he
          have hev := mem_of_mem_getVlans st.device b v e he
          have hek := getVlans_key st.device b v e he
          by_cases hc2 : get_id e = some vid
          · exfalso
            have heq := uniqueIds_resolve _ hwf.2.1 e e0 hev he0v vid hc2 hid
            rw [heq] at hek
            exact hne' (Option.some.inj (hkey.2.symm.trans hek.2))
          · rw [if_neg hc2]

theorem runVlans_frame (b v : String) :
    ∀ (m : List (String × List String)) (st : VState), WF st.device →
      (∀ kv ∈ m, kv.1 ≠ v) →
      getVlans (runVlans noFaults b st m).device b v = getVlans st.device b v := by
  intro m
  induction m with
  | nil => intro st _ _; rfl
  | cons kv rest ih =>
    intro st hwf hne
    rw [runVlans_cons]
    rw [ih _ (stepVlan_WF noFaults b st kv hwf) (fun kv' h => hne kv' (List.mem_cons_of_mem kv h)),
      stepVlan_frame noFaults b st kv v hwf (hne kv (List.mem_cons_self kv rest))]

theorem stepVlan_absent (b : String) (st : VState) (v : String) (u : List String)
    (habs : getVlans st.device b v = []) :
    (stepVlan noFaults b st (v, u)).device = addVlan st.device b v (array_to_string u) ∧
    getVlans (stepVlan noFaults b st (v, u)).device b v =
      [newVlanEntry st.device.nextId b v (array_to_string u)] := by
  have hdev : (stepVlan noFaults b st (v, u)).device =
      addVlan st.device b v (array_to_string u) := by
    unfold stepVlan
    simp [noFaults, habs]
  refine ⟨hdev, ?_⟩
  rw [hdev, getVlans_addVlan_same, habs, List.nil_append]

theorem stepVlan_bad (b : String) (st : VState) (v : String) (u : List String)
    (e : Entry) (r : List Entry) (hget : getVlans st.device b v = e :: r)
    (hid : get_id e = none) : (stepVlan noFaults b st (v, u)).device = st.device := by
  unfold stepVlan
  simp only [noFaults, Bool.false_eq_true, if_false, hget, hid]

theorem stepVlan_good (b : String) (st : VState) (v : String) (u : List String)
    (e : Entry) (r : List Entry) (vid : String)
    (hget : getVlans st.device b v = e :: r) (hid : get_id e = some vid) :
    getVlans (stepVlan noFaults b st (v, u)).device b v =
      updVlanFields e (array_to_string u) (newTaggedStr e u) ::
        r.map (fun e2 => if get_id e2 = some vid
          then updVlanFields e2 (array_to_string u) (newTaggedStr e u) else e2) := by
  have hdev : (stepVlan noFaults b st (v, u)).device =
      setVlans st.device vid (array_to_string u) (newTaggedStr e u) := by
    unfold stepVlan
    simp only [noFaults, Bool.false_eq_true, if_false, hget, hid]
    rfl
  rw [hdev, getVlans_setVlans, hget, List.map_cons, if_pos hid]

theorem runVlans_key_absent (b v : String) (u : List String) :
    ∀ (m : List (String × List String)) (st : VState), WF st.device →
      (v, u) ∈ m → (m.map Prod.fst).Nodup → getVlans st.device b v = [] →
      ∃ n, getVlans (runVlans noFaults b st m).device b v =
        [newVlanEntry n b v (array_to_string u)] := by
  intro m
  induction m with
  | nil => intro st _ hmem; simp at hmem
  | cons kv rest ih =>
    intro st hwf hmem hnd habs
    obtain ⟨k, w⟩ := kv
    rw [runVlans_cons]
    by_cases hk : k = v
    · subst hk
      have hw : w = u := by
        rcases List.mem_cons.1 hmem with h | h
        · exact (congrArg Prod.snd h).symm
        · exfalso
          have : k ∈ rest.map Prod.fst := List.mem_map.2 ⟨(k, u), h, rfl⟩
          exact (List.nodup_cons.1 (by simpa using hnd)).1 this
      subst hw
      obtain ⟨hdev, hget⟩ := stepVlan_absent b st k w habs
      refine ⟨st.device.nextId, ?_⟩
      rw [runVlans_frame b k rest _ (stepVlan_WF noFaults b st (k, w) hwf) ?_, hget]
      intro kv' hkv' heq
      have : k ∈ rest.map Prod.fst := List.mem_map.2 ⟨kv', hkv', heq⟩
      exact (List.nodup_cons.1 (by simpa using hnd)).1 this
    · have hmem' : (v, u) ∈ rest := by
        rcases List.mem_cons.1 hmem with h | h
        · exact absurd (congrArg Prod.fst h).symm hk
        · exact h
      have hframe := stepVlan_frame noFaults b st (k, w) v hwf hk
      obtain ⟨n, hn⟩ := ih _ (stepVlan_WF noFaults b st (k, w) hwf) hmem'
        (List.Nodup.of_cons (by simpa using hnd)) (by rw [hframe]; exact habs)
      exact ⟨n, hn⟩

theorem runVlans_key_bad (b v : String) (u : List String) :
    ∀ (m : List (String × List String)) (st : VState), WF st.device →
      (v, u) ∈ m → (m.map Prod.fst).Nodup →
      ∀ (e : Entry) (r : List Entry), getVlans st.device b v = e :: r → get_id e = none →
      getVlans (runVlans noFaults b st m).device b v = e :: r := by
  intro m
  induction m with
  | nil => intro st _ hmem; simp at hmem
  | cons kv rest ih =>
    intro st hwf hmem hnd e r hget hid
    obtain ⟨k, w⟩ := kv
    rw [runVlans_cons]
    by_cases hk : k = v
    · subst hk
      have hdev := stepVlan_bad b st k w e r hget hid
      rw [runVlans_frame b k rest _ (by rw [hdev]; exact hwf) ?_, hdev, hget]
      intro kv' hkv' heq
      have : k ∈ rest.map Prod.fst := List.mem_map.2 ⟨kv', hkv', heq⟩
      exact (List.nodup_cons.1 (by simpa using hnd)).1 this
    · have hmem' : (v, u) ∈ rest := by
        rcases List.mem_cons.1 hmem with h | h
        · exact absurd (congrArg Prod.fst h).symm hk
        · exact h
      have hframe := stepVlan_frame noFaults b st (k, w) v hwf hk
      exact ih _ (stepVlan_WF noFaults b st (k, w) hwf) hmem'
        (List.Nodup.of_cons (by simpa using hnd)) e r (by rw [hframe]; exact hget) hid

theorem runVlans_key_good (b v : String) (u : List String) :
    ∀ (m : List (String × List String)) (st : VState), WF st.device →
      (v, u) ∈ m → (m.map Prod.fst).Nodup →
      ∀ (e : Entry) (r : List Entry) (vid : String),
        getVlans st.device b v = e :: r → get_id e = some vid →
      ∃ tail, getVlans (runVlans noFaults b st m).device b v =
        updVlanFields e (array_to_string u) (newTaggedStr e u) :: tail := by
  intro m
  induction m with
  | nil => intro st _ hmem; simp at hmem
  | cons kv rest ih =>
    intro st hwf hmem hnd e r vid hget hid
    obtain ⟨k, w⟩ := kv
    rw [runVlans_cons]
    by_cases hk : k = v
    · subst hk
      have hw : w = u := by
        rcases List.mem_cons.1 hmem with h | h
        · exact (congrArg Prod.snd h).symm
        · exfalso
          have : k ∈ rest.map Prod.fst := List.mem_map.2 ⟨(k, u), h, rfl⟩
          exact (List.nodup_cons.1 (by simpa using hnd)).1 this
      subst hw
      have hget' := stepVlan_good b st k w e r vid hget hid
      refine ⟨r.map (fun e2 => if get_id e2 = some vid
          then updVlanFields e2 (array_to_string w) (newTaggedStr e w) else e2), ?_⟩
      rw [runVlans_frame b k rest _ (stepVlan_WF noFaults b st (k, w) hwf) ?_, hget']
      intro kv' hkv' heq
      have : k ∈ rest.map Prod.fst := List.mem_map.2 ⟨kv', hkv', heq⟩
      exact (List.nodup_cons.1 (by simpa using hnd)).1 this
    · have hmem' : (v, u) ∈ rest := by
        rcases List.mem_cons.1 hmem with h | h
        · exact absurd (congrArg Prod.fst h).symm hk
        · exact h
      have hframe := stepVlan_frame noFaults b st (k, w) v hwf hk
      exact ih _ (stepVlan_WF noFaults b st (k, w) hwf) hmem'
        (List.Nodup.of_cons (by simpa using hnd)) e r vid (by rw [hframe]; exact hget) hid

/-! ### Assembling the two consecutive fault-free runs -/

/-- The interface pass of a fault-free run. -/
def portPass (b : String) (cfgs : List String) (dev : Device) : PState :=
  runPorts noFaults b ⟨dev, [], []⟩ cfgs

/-- The device after one full fault-free run. -/
def fullRun (b : String) (cfgs : List String) (dev : Device) : Device :=
  (apply_switch_config noFaults b cfgs dev).device

theorem fullRun_eq (b : String) (cfgs : List String) (dev : Device) :
    fullRun b cfgs dev =
      (runVlans noFaults b ⟨(portPass b cfgs dev).device, (portPass b cfgs dev).events⟩
        (portPass b cfgs dev).vmap).device := rfl

theorem portPass_WF (b : String) (cfgs : List String) (dev : Device) (h : WF dev) :
    WF (portPass b cfgs dev).device :=
  runPorts_WF noFaults b cfgs ⟨dev, [], []⟩ h

theorem fullRun_WF (b : String) (cfgs : List String) (dev : Device) (h : WF dev) :
    WF (fullRun b cfgs dev) := by
  rw [fullRun_eq]
  exact runVlans_WF noFaults b _ _ (portPass_WF b cfgs dev h)

theorem fullRun_ports (b : String) (cfgs : List String) (dev : Device) :
    (fullRun b cfgs dev).ports = (portPass b cfgs dev).device.ports := by
  rw [fullRun_eq]
  exact runVlans_ports noFaults b _ _

theorem portPass_vlans (b : String) (cfgs : List String) (dev : Device) :
    (portPass b cfgs dev).device.vlans = dev.vlans :=
  runPorts_vlans noFaults b cfgs ⟨dev, [], []⟩

/-- The per-port managed values are unchanged by a second identical run. -/
theorem run2_portValues (b : String) (cfgs : List String) (dev : Device) (hwf : WF dev)
    (i : String) :
    portValues (fullRun b cfgs (fullRun b cfgs dev)) b i =
      portValues (fullRun b cfgs dev) b i := by
  have hwf1 := fullRun_WF b cfgs dev hwf
  have hc1 : getPorts (fullRun b cfgs dev) b i =
      getPorts (runPorts noFaults b ⟨dev, [], []⟩ cfgs).device b i :=
    getPorts_congr_ports _ _ (fullRun_ports b cfgs dev) b i
  have hc2 : getPorts (fullRun b cfgs (fullRun b cfgs dev)) b i =
      getPorts (runPorts noFaults b ⟨fullRun b cfgs dev, [], []⟩ cfgs).device b i :=
    getPorts_congr_ports _ _ (fullRun_ports b cfgs _) b i
  rcases goodAbs_or_badHead (getPorts dev b i) with hga | hbad
  · rcases hlo : lastOcc cfgs i with _ | ⟨p0, g0, t0⟩
    · have h1 : getPorts (runPorts noFaults b ⟨dev, [], []⟩ cfgs).device b i =
          getPorts dev b i :=
        runPorts_frame_none b i cfgs ⟨dev, [], []⟩ hwf hlo
      have h1' : getPorts (fullRun b cfgs dev) b i = getPorts dev b i := by rw [hc1, h1]
      have h2 : getPorts (runPorts noFaults b ⟨fullRun b cfgs dev, [], []⟩ cfgs).device b i =
          getPorts (fullRun b cfgs dev) b i :=
        runPorts_frame_none b i cfgs ⟨fullRun b cfgs dev, [], []⟩ hwf1 hlo
      unfold portValues
      rw [hc1, hc2, h1, h2, h1']
    · obtain ⟨e1, r1, pid1, hg1, hi1, hv11, hv12, hv13⟩ :=
        (runPorts_key_final b i cfgs ⟨dev, [], []⟩ hwf hga).2 p0 g0 t0 hlo
      have hga1 : GoodAbs (getPorts (fullRun b cfgs dev) b i) := by
        rw [hc1, hg1]
        exact Or.inr ⟨e1, r1, pid1, rfl, hi1⟩
      obtain ⟨e2, r2, pid2, hg2, hi2, hv21, hv22, hv23⟩ :=
        (runPorts_key_final b i cfgs ⟨fullRun b cfgs dev, [], []⟩ hwf1 hga1).2 p0 g0 t0 hlo
      unfold portValues
      rw [hc1, hc2, hg1, hg2]
      simp [hv11, hv12, hv13, hv21, hv22, hv23]
  · obtain ⟨e, r, heq, hid⟩ := hbad
    have h1 : getPorts (runPorts noFaults b ⟨dev, [], []⟩ cfgs).device b i = e :: r :=
      runPorts_badHead b i cfgs ⟨dev, [], []⟩ e r hwf heq hid
    have h1' : getPorts (fullRun b cfgs dev) b i = e :: r := by rw [hc1, h1]
    have h2 : getPorts (runPorts noFaults b ⟨fullRun b cfgs dev, [], []⟩ cfgs).device b i =
        e :: r :=
      runPorts_badHead b i cfgs ⟨fullRun b cfgs dev, [], []⟩ e r hwf1 h1' hid
    unfold portValues
    rw [hc1, hc2, h1, h2]

/-- A second identical run accumulates the same VLAN map. -/
theorem run_vmap_eq (b : String) (cfgs : List String) (dev : Device) (hwf : WF dev) :
    (portPass b cfgs (fullRun b cfgs dev)).vmap = (portPass b cfgs dev).vmap := by
  show (runPorts noFaults b ⟨fullRun b cfgs dev, [], []⟩ cfgs).vmap =
      (runPorts noFaults b ⟨dev, [], []⟩ cfgs).vmap
  apply runPorts_vmap_rel b cfgs ⟨fullRun b cfgs dev, [], []⟩ ⟨dev, [], []⟩
    (fullRun_WF b cfgs dev hwf) hwf rfl
  intro i
  have hc1 : getPorts (fullRun b cfgs dev) b i =
      getPorts (runPorts noFaults b ⟨dev, [], []⟩ cfgs).device b i :=
    getPorts_congr_ports _ _ (fullRun_ports b cfgs dev) b i
  by_cases hbad : BadHead (getPorts dev b i)
  · obtain ⟨e, r, heq, hid⟩ := hbad
    have h1 : getPorts (runPorts noFaults b ⟨dev, [], []⟩ cfgs).device b i = e :: r :=
      runPorts_badHead b i cfgs ⟨dev, [], []⟩ e r hwf heq hid
    constructor
    · intro _
      exact ⟨e, r, heq, hid⟩
    · intro _
      rw [hc1, h1]
      exact ⟨e, r, rfl, hid⟩
  · have hga := (goodAbs_iff_not_badHead _).2 hbad
    have hnot1 : ¬BadHead (getPorts (fullRun b cfgs dev) b i) := by
      rcases hlo : lastOcc cfgs i with _ | ⟨p0, g0, t0⟩
      · rw [hc1, runPorts_frame_none b i cfgs ⟨dev, [], []⟩ hwf hlo]
        exact hbad
      · obtain ⟨e1, r1, pid1, hg1, hi1, -, -, -⟩ :=
          (runPorts_key_final b i cfgs ⟨dev, [], []⟩ hwf hga).2 p0 g0 t0 hlo
        rw [hc1, hg1]
        exact not_badHead_cons_some _ _ _ hi1
    exact iff_of_false hnot1 hbad

theorem newTaggedStr_newVlanEntry (n : Nat) (b v uu : String) (u : List String) :
    newTaggedStr (newVlanEntry n b v uu) u = "" := by
  unfold newTaggedStr
  have h : lookupF (newVlanEntry n b v uu) "tagged" = none := by
    simp [newVlanEntry, lookupF]
  rw [h]
  rfl

/-- Applying the tagged diff a second time, to its own output, changes
nothing — provided the first output is not a nonempty string made up
entirely of Python-whitespace characters. -/
theorem newTaggedStr_idem (u : List String) (e : Entry)
    (hclean : newTaggedStr e u ≠ "" →
      (newTaggedStr e u).toList.any (fun ch => !(pyIsSpace ch)) = true) :
    newTaggedStr (updVlanFields e (array_to_string u) (newTaggedStr e u)) u =
      newTaggedStr e u := by
  have htag : lookupF (updVlanFields e (array_to_string u) (newTaggedStr e u)) "tagged" =
      some (newTaggedStr e u) := (lookupF_updVlanFields_vals _ _ _).2
  show array_to_string ((tagged_to_array ((lookupF
      (updVlanFields e (array_to_string u) (newTaggedStr e u)) "tagged").getD "")).filter
      (fun t => !(u.contains t))) = newTaggedStr e u
  rw [htag]
  simp only [Option.getD_some]
  exact tagged_diff_roundtrip u
    ((tagged_to_array ((lookupF e "tagged").getD "")).filter (fun t => !(u.contains t)))
    (fun x hx => tagged_to_array_no_comma _ x (List.mem_filter.1 hx).1)
    (fun x hx => (List.mem_filter.1 hx).2)
    hclean

/-- The per-VLAN managed values are unchanged by a second identical run,
provided no VLAN entry's tagged value after the first run is a nonempty
string made up entirely of Python-whitespace characters. -/
theorem run2_vlanValues (b : String) (cfgs : List String) (dev : Device) (hwf : WF dev)
    (hclean : ∀ e ∈ (fullRun b cfgs dev).vlans,
      (lookupF e "tagged").getD "" ≠ "" →
      ((lookupF e "tagged").getD "").toList.any (fun ch => !(pyIsSpace ch)) = true)
    (v : String) :
    vlanValues (fullRun b cfgs (fullRun b cfgs dev)) b v =
      vlanValues (fullRun b cfgs dev) b v := by
  have hwfA1 : WF (runPorts noFaults b ⟨dev, [], []⟩ cfgs).device :=
    runPorts_WF noFaults b cfgs ⟨dev, [], []⟩ hwf
  have hwf1 : WF (fullRun b cfgs dev) := fullRun_WF b cfgs dev hwf
  have hwfA2 : WF (runPorts noFaults b ⟨fullRun b cfgs dev, [], []⟩ cfgs).device :=
    runPorts_WF noFaults b cfgs _ hwf1
  have hnd : (((runPorts noFaults b ⟨dev, [], []⟩ cfgs).vmap).map Prod.fst).Nodup :=
    runPorts_keys_nodup noFaults b cfgs ⟨dev, [], []⟩ (by simp)
  have hm2 : (runPorts noFaults b ⟨fullRun b cfgs dev, [], []⟩ cfgs).vmap =
      (runPorts noFaults b ⟨dev, [], []⟩ cfgs).vmap := run_vmap_eq b cfgs dev hwf
  have hdev1 : fullRun b cfgs dev =
      (runVlans noFaults b ⟨(runPorts noFaults b ⟨dev, [], []⟩ cfgs).device,
        (runPorts noFaults b ⟨dev, [], []⟩ cfgs).events⟩
        (runPorts noFaults b ⟨dev, [], []⟩ cfgs).vmap).device := rfl
  have hdev2 : fullRun b cfgs (fullRun b cfgs dev) =
      (runVlans noFaults b
        ⟨(runPorts noFaults b ⟨fullRun b cfgs dev, [], []⟩ cfgs).device,
         (runPorts noFaults b ⟨fullRun b cfgs dev, [], []⟩ cfgs).events⟩
        (runPorts noFaults b ⟨fullRun b cfgs dev, [], []⟩ cfgs).vmap).device := rfl
  have hA2v : getVlans (runPorts noFaults b ⟨fullRun b cfgs dev, [], []⟩ cfgs).device b v =
      getVlans (fullRun b cfgs dev) b v :=
    getVlans_congr_vlans _ _ (runPorts_vlans noFaults b cfgs _) b v
  by_cases hkey : v ∈ ((runPorts noFaults b ⟨dev, [], []⟩ cfgs).vmap).map Prod.fst
  · obtain ⟨⟨v', u⟩, hmem, hfst⟩ := List.mem_map.1 hkey
    have hv' : v' = v := hfst
    subst hv'
    have hmem2 : (v', u) ∈ (runPorts noFaults b ⟨fullRun b cfgs dev, [], []⟩ cfgs).vmap := by
      rw [hm2]
      exact hmem
    have hnd2 : (((runPorts noFaults b ⟨fullRun b cfgs dev, [], []⟩ cfgs).vmap).map
        Prod.fst).Nodup := by
      rw [hm2]
      exact hnd
    rcases goodAbs_or_badHead
        (getVlans (runPorts noFaults b ⟨dev, [], []⟩ cfgs).device b v') with hga | hbad
    · rcases hga with habs | ⟨e, r, vid, hcons, hid⟩
      · obtain ⟨n, h1⟩ := runVlans_key_absent b v' u
          (runPorts noFaults b ⟨dev, [], []⟩ cfgs).vmap
          ⟨(runPorts noFaults b ⟨dev, [], []⟩ cfgs).device,
           (runPorts noFaults b ⟨dev, [], []⟩ cfgs).events⟩
          hwfA1 hmem hnd habs
        have h1' : getVlans (fullRun b cfgs dev) b v' =
            [newVlanEntry n b v' (array_to_string u)] := by
          rw [hdev1]
          exact h1
        have hstat2 : getVlans
            (runPorts noFaults b ⟨fullRun b cfgs dev, [], []⟩ cfgs).device b v' =
            newVlanEntry n b v' (array_to_string u) :: [] := by
          rw [hA2v, h1']
        obtain ⟨tail2, h2⟩ := runVlans_key_good b v' u
          (runPorts noFaults b ⟨fullRun b cfgs dev, [], []⟩ cfgs).vmap
          ⟨(runPorts noFaults b ⟨fullRun b cfgs dev, [], []⟩ cfgs).device,
           (runPorts noFaults b ⟨fullRun b cfgs dev, [], []⟩ cfgs).events⟩
          hwfA2 hmem2 hnd2 _ [] (mkId n) hstat2 (get_id_newVlanEntry n b v' _)
        rw [hdev2]
        unfold vlanValues
        rw [h2, h1']
        simp only [List.head?_cons, Option.map_some']
        have hv2 := lookupF_updVlanFields_vals (newVlanEntry n b v' (array_to_string u))
          (array_to_string u)
          (newTaggedStr (newVlanEntry n b v' (array_to_string u)) u)
        rw [hv2.1, hv2.2, newTaggedStr_newVlanEntry]
        simp [newVlanEntry, lookupF]
      · obtain ⟨tail1, h1⟩ := runVlans_key_good b v' u
          (runPorts noFaults b ⟨dev, [], []⟩ cfgs).vmap
          ⟨(runPorts noFaults b ⟨dev, [], []⟩ cfgs).device,
           (runPorts noFaults b ⟨dev, [], []⟩ cfgs).events⟩
          hwfA1 hmem hnd e r vid hcons hid
        have h1' : getVlans (fullRun b cfgs dev) b v' =
            updVlanFields e (array_to_string u) (newTaggedStr e u) :: tail1 := by
          rw [hdev1]
          exact h1
        have hE1mem : updVlanFields e (array_to_string u) (newTaggedStr e u) ∈
            (fullRun b cfgs dev).vlans := by
          apply mem_of_mem_getVlans (fullRun b cfgs dev) b v'
          rw [h1']
          exact List.mem_cons_self _ _
        have hE1tag : lookupF (updVlanFields e (array_to_string u) (newTaggedStr e u))
            "tagged" = some (newTaggedStr e u) := (lookupF_updVlanFields_vals _ _ _).2
        have hcleanE1 := hclean _ hE1mem
        rw [hE1tag] at hcleanE1
        simp only [Option.getD_some] at hcleanE1
        have hidem := newTaggedStr_idem u e hcleanE1
        have hstat2 : getVlans
            (runPorts noFaults b ⟨fullRun b cfgs dev, [], []⟩ cfgs).device b v' =
            updVlanFields e (array_to_string u) (newTaggedStr e u) :: tail1 := by
          rw [hA2v, h1']
        have hid2 : get_id (updVlanFields e (array_to_string u) (newTaggedStr e u)) =
            some vid := by
          rw [get_id_updVlanFields]
          exact hid
        obtain ⟨tail2, h2⟩ := runVlans_key_good b v' u
          (runPorts noFaults b ⟨fullRun b cfgs dev, [], []⟩ cfgs).vmap
          ⟨(runPorts noFaults b ⟨fullRun b cfgs dev, [], []⟩ cfgs).device,
           (runPorts noFaults b ⟨fullRun b cfgs dev, [], []⟩ cfgs).events⟩
          hwfA2 hmem2 hnd2 _ tail1 vid hstat2 hid2
        rw [hdev2]
        unfold vlanValues
        rw [h2, h1']
        simp only [List.head?_cons, Option.map_some']
        have hv2 := lookupF_updVlanFields_vals
          (updVlanFields e (array_to_string u) (newTaggedStr e u)) (array_to_string u)
          (newTaggedStr (updVlanFields e (array_to_string u) (newTaggedStr e u)) u)
        have hv1 := lookupF_updVlanFields_vals e (array_to_string u) (newTaggedStr e u)
        rw [hv2.1, hv2.2, hv1.1, hv1.2, hidem]
    · obtain ⟨e, r, hcons, hid⟩ := hbad
      have h1' : getVlans (fullRun b cfgs dev) b v' = e :: r := by
        rw [hdev1]
        exact runVlans_key_bad b v' u
          (runPorts noFaults b ⟨dev, [], []⟩ cfgs).vmap
          ⟨(runPorts noFaults b ⟨dev, [], []⟩ cfgs).device,
           (runPorts noFaults b ⟨dev, [], []⟩ cfgs).events⟩
          hwfA1 hmem hnd e r hcons hid
      have hstat2 : getVlans
          (runPorts noFaults b ⟨fullRun b cfgs dev, [], []⟩ cfgs).device b v' = e :: r := by
        rw [hA2v, h1']
      have h2 := runVlans_key_bad b v' u
        (runPorts noFaults b ⟨fullRun b cfgs dev, [], []⟩ cfgs).vmap
        ⟨(runPorts noFaults b ⟨fullRun b cfgs dev, [], []⟩ cfgs).device,
         (runPorts noFaults b ⟨fullRun b cfgs dev, [], []⟩ cfgs).events⟩
        hwfA2 hmem2 hnd2 e r hstat2 hid
      rw [hdev2]
      unfold vlanValues
      rw [h2, h1']
  · have hne : ∀ kv ∈ (runPorts noFaults b ⟨dev, [], []⟩ cfgs).vmap, kv.1 ≠ v :=
      fun kv hkv heq => hkey (List.mem_map.2 ⟨kv, hkv, heq⟩)
    have h1 : getVlans (fullRun b cfgs dev) b v =
        getVlans (runPorts noFaults b ⟨dev, [], []⟩ cfgs).device b v := by
      rw [hdev1]
      exact runVlans_frame b v _ _ hwfA1 hne
    have h2 : getVlans (fullRun b cfgs (fullRun b cfgs dev)) b v =
        getVlans (runPorts noFaults b ⟨fullRun b cfgs dev, [], []⟩ cfgs).device b v := by
      rw [hdev2, hm2]
      exact runVlans_frame b v _ _ hwfA2 hne
    unfold vlanValues
    rw [h2, hA2v, h1]

/-! ### Claim C2: idempotence of a repeated run -/

/-- **C2 counterexample.** Idempotence fails as stated: starting from a VLAN
entry with `tagged=" ,eth1"` and desired `untagged=["eth1"]`, the first run
writes `tagged=" "`; the second run reads `" "`, whose `strip()` is falsy,
and writes `tagged=""` — the per-VLAN tagged value differs between the two
runs. -/
theorem c2_idempotence_counterexample :
    vlanValues (apply_switch_config noFaults "br" ["eth1,10,yes,admit-all"]
        (apply_switch_config noFaults "br" ["eth1,10,yes,admit-all"]
          ⟨[], [[(".id", "v1"), ("bridge", "br"), ("vlan-ids", "10"),
            ("tagged", " ,eth1"), ("untagged", "")]], 0⟩).device).device "br" "10" ≠
      vlanValues (apply_switch_config noFaults "br" ["eth1,10,yes,admit-all"]
        ⟨[], [[(".id", "v1"), ("bridge", "br"), ("vlan-ids", "10"),
          ("tagged", " ,eth1"), ("untagged", "")]], 0⟩).device "br" "10" := by
  decide

/-- **C2 (amended).** On a well-formed device, running the full fault-free
reconciliation twice in succession — the second run starting from the first
run's device state — yields the same per-port `pvid`/`frame-types`/
`ingress-filtering` values and the same per-VLAN `untagged`/`tagged` values
after the second run as after the first, for every desired interface and
VLAN id, **provided** that after the first run no VLAN entry's tagged value
is a nonempty string made up entirely of Python-whitespace characters (the
corner in which the second run's `strip()` guard normalizes such a value to
the empty string). -/
theorem c2_idempotent_amended (b : String) (cfgs : List String) (dev : Device)
    (hwf : WF dev)
    (hclean : ∀ e ∈ (apply_switch_config noFaults b cfgs dev).device.vlans,
      (lookupF e "tagged").getD "" ≠ "" →
      ((lookupF e "tagged").getD "").toList.any (fun ch => !(pyIsSpace ch)) = true) :
    ∀ c ∈ cfgs, ∀ i p g t, parse_config c = .ok (i, p, g, t) →
      portValues (apply_switch_config noFaults b cfgs
          (apply_switch_config noFaults b cfgs dev).device).device b i =
        portValues (apply_switch_config noFaults b cfgs dev).device b i ∧
      vlanValues (apply_switch_config noFaults b cfgs
          (apply_switch_config noFaults b cfgs dev).device).device b p =
        vlanValues (apply_switch_config noFaults b cfgs dev).device b p := by
  intro c hc i p g t hp
  exact ⟨run2_portValues b cfgs dev hwf i, run2_vlanValues b cfgs dev hwf hclean p⟩

/-- **C2 witness.** From the empty device and one desired record, the
second run reproduces the first run's port values for `eth1` and VLAN
values for VLAN `10`. -/
theorem c2_idempotent_amended_witness :
    portValues (apply_switch_config noFaults "br" ["eth1,10,yes,admit-all"]
        (apply_switch_config noFaults "br" ["eth1,10,yes,admit-all"]
          emptyDevice).device).device "br" "eth1" =
      portValues (apply_switch_config noFaults "br" ["eth1,10,yes,admit-all"]
        emptyDevice).device "br" "eth1" ∧
    vlanValues (apply_switch_config noFaults "br" ["eth1,10,yes,admit-all"]
        (apply_switch_config noFaults "br" ["eth1,10,yes,admit-all"]
          emptyDevice).device).device "br" "10" =
      vlanValues (apply_switch_config noFaults "br" ["eth1,10,yes,admit-all"]
        emptyDevice).device "br" "10" := by
  have hwf : WF emptyDevice := by
    refine ⟨?_, ?_, ?_⟩
    · rintro e1 h1
      simp [emptyDevice] at h1
    · rintro e1 h1
      simp [emptyDevice] at h1
    · rintro e (he | he) <;> simp [emptyDevice] at he
  exact c2_idempotent_amended "br" ["eth1,10,yes,admit-all"] emptyDevice hwf (by decide)
    "eth1,10,yes,admit-all" (List.mem_singleton.2 rfl) "eth1" "10" "yes" "admit-all" rfl

end SwitchConfig
